import Mathlib

/-!
Verification of the opensearch-query-builder library: the typed query data
model and its JSON projection (`to_json`), plus the serde round-trip of the
single-file revision of the crate.

JSON values are modelled by the inductive `Json` below.  Rust's
`serde_json::Map` is modelled as an insertion-ordered association list: every
`Map::insert` in the source inserts a fresh key, so a map built by a sequence
of inserts is exactly the list of its entries in insertion order.  The numeric
types of the source (`f64`, `f32`, `u32`, `i32`) never take part in arithmetic
in this library — they are only stored and emitted — so they are all modelled
by `Rat`, which represents every value those types can hold that the claims
mention, exactly.
-/

/-- Model of a structured JSON value (the `serde_json::Value` collaborator). -/
inductive Json where
  | null
  | bool (b : Bool)
  | num (q : Rat)
  | str (s : String)
  | arr (elems : List Json)
  | obj (entries : List (String × Json))
deriving Repr

mutual

/-- Boolean structural equality of JSON values. -/
def Json.beq : Json → Json → Bool
  | .null, .null => true
  | .bool a, .bool b => a == b
  | .num a, .num b => a == b
  | .str a, .str b => a == b
  | .arr xs, .arr ys => Json.beqList xs ys
  | .obj xs, .obj ys => Json.beqEntries xs ys
  | _, _ => false

/-- Boolean structural equality of JSON arrays. -/
def Json.beqList : List Json → List Json → Bool
  | [], [] => true
  | x :: xs, y :: ys => Json.beq x y && Json.beqList xs ys
  | _, _ => false

/-- Boolean structural equality of JSON object entry lists. -/
def Json.beqEntries (es fs : List (String × Json)) : Bool :=
  match es, fs with
  | [], [] => true
  | (ka, va) :: rest, (kb, vb) :: rest2 =>
      ka == kb && Json.beq va vb && Json.beqEntries rest rest2
  | _, _ => false

end

mutual

theorem Json.beq_iff_eq (a b : Json) : Json.beq a b = true ↔ a = b := by
  cases a <;> cases b <;> simp [Json.beq] <;>
    first
      | (rename_i x y; exact Json.beqList_iff_eq x y)
      | (rename_i x y; exact Json.beqEntries_iff_eq x y)
termination_by sizeOf a

theorem Json.beqList_iff_eq (xs ys : List Json) :
    Json.beqList xs ys = true ↔ xs = ys := by
  match xs, ys with
  | [], [] => simp [Json.beqList]
  | [], _ :: _ => simp [Json.beqList]
  | _ :: _, [] => simp [Json.beqList]
  | x :: xs, y :: ys =>
    rw [Json.beqList]
    simp [Json.beq_iff_eq x y, Json.beqList_iff_eq xs ys]
termination_by sizeOf xs

theorem Json.beqEntries_iff_eq (xs ys : List (String × Json)) :
    Json.beqEntries xs ys = true ↔ xs = ys := by
  match xs, ys with
  | [], [] => simp [Json.beqEntries]
  | [], _ :: _ => simp [Json.beqEntries]
  | _ :: _, [] => simp [Json.beqEntries]
  | (ka, va) :: xs, (kb, vb) :: ys =>
    rw [Json.beqEntries]
    simp [Json.beq_iff_eq va vb, Json.beqEntries_iff_eq xs ys, and_assoc]
termination_by sizeOf xs

end

instance : DecidableEq Json := fun a b =>
  decidable_of_iff _ (Json.beq_iff_eq a b)

/-- Entry list contributed by an optional value: `skip_serializing_if` /
`if let Some(v) = ... { map.insert(k, f v) }` emits nothing when the option is
`None` and a single entry when it is `Some`. -/
def optEntry (k : String) : Option Json → List (String × Json)
  | none => []
  | some v => [(k, v)]

/-- Whether a key occurs in an entry list. -/
def hasKey (kvs : List (String × Json)) (k : String) : Bool :=
  kvs.any (fun p => p.1 == k)

/-- Whether a JSON value is an object containing the key. -/
def Json.objHasKey : Json → String → Bool
  | .obj kvs, k => hasKey kvs k
  | _, _ => false

/-- Whether a JSON value is an object. -/
def Json.isObj : Json → Bool
  | .obj _ => true
  | _ => false

/-- Look a key up in an object (first occurrence), `Json.null` otherwise. -/
def Json.getD : Json → String → Json
  | .obj kvs, k => ((kvs.find? (fun p => p.1 == k)).map Prod.snd).getD .null
  | _, _ => .null

@[simp]
theorem hasKey_nil (k : String) : hasKey [] k = false := rfl

@[simp]
theorem hasKey_cons (k k' : String) (v : Json) (rest : List (String × Json)) :
    hasKey ((k', v) :: rest) k = (k' == k || hasKey rest k) := rfl

@[simp]
theorem hasKey_append (xs ys : List (String × Json)) (k : String) :
    hasKey (xs ++ ys) k = (hasKey xs k || hasKey ys k) := by
  simp [hasKey, List.any_append]

@[simp]
theorem hasKey_ite (k : String) (c : Prop) [Decidable c]
    (l₁ l₂ : List (String × Json)) :
    hasKey (if c then l₁ else l₂) k
      = if c then hasKey l₁ k else hasKey l₂ k := by
  split <;> rfl

@[simp]
theorem hasKey_optEntry (k k' : String) (v : Option Json) :
    hasKey (optEntry k' v) k = (v.isSome && (k' == k)) := by
  cases v <;> simp [optEntry]

@[simp]
theorem ite_bool_false_true (c : Bool) :
    (if c = true then false else true) = !c := by
  cases c <;> simp

@[simp]
theorem decide_eq_nil_isEmpty {α : Type _} (l : List α) [Decidable (l = [])] :
    decide (l = []) = l.isEmpty := by
  cases l <;> simp

/-! ## Shared leaf node types

These structs are textually identical between the modular revision
(`src/query/*.rs`, `src/request/*.rs`) and the single-file revision
(`src/lib.rs`), up to string ownership (`Cow<'a, str>` vs `String`) and float
width (`f64` vs `f32`), neither of which affects the model. -/

/-- The query::term::TermQuery struct: field, value, optional boost. -/
structure TermQuery where
  field : String
  value : Json
  boost : Option Rat
deriving Repr, DecidableEq

/-- Create a new TermQuery with a given field and value (`TermQuery::new`). -/
def TermQuery.new (field : String) (value : Json) : TermQuery :=
  ⟨field, value, none⟩

/-- Set the boost value (`TermQuery::boost`). -/
def TermQuery.setBoost (t : TermQuery) (boost : Rat) : TermQuery :=
  { t with boost := some boost }

/-- The JSON projection of a TermQuery (`impl ToOpenSearchJson for TermQuery`):
simple form without boost, object form with boost. -/
def TermQuery.to_json (t : TermQuery) : Json :=
  if t.boost.isSome then
    .obj [("term", .obj [(t.field,
      .obj ([("value", t.value)] ++ optEntry "boost" (t.boost.map .num)))])]
  else
    .obj [("term", .obj [(t.field, t.value)])]

/-- The query::terms::TermsQuery struct: field, values, optional boost. -/
structure TermsQuery where
  field : String
  values : List Json
  boost : Option Rat
deriving Repr, DecidableEq

/-- The JSON projection of a TermsQuery: simple form `terms.field = [values]`
without boost, object form with a nested `terms` array plus boost. -/
def TermsQuery.to_json (t : TermsQuery) : Json :=
  if t.boost.isSome then
    .obj [("terms", .obj [(t.field,
      .obj ([("terms", .arr t.values)] ++ optEntry "boost" (t.boost.map .num)))])]
  else
    .obj [("terms", .obj [(t.field, .arr t.values)])]

/-- The query::match_query::MatchQuery struct. -/
structure MatchQuery where
  field : String
  query : String
  operator : Option String
  fuzziness : Option String
  boost : Option Rat
  minimum_should_match : Option String
deriving Repr, DecidableEq

/-- The JSON projection of a MatchQuery: simple form when no option is set,
otherwise the object form with query/operator/fuzziness/boost/msm keys. -/
def MatchQuery.to_json (m : MatchQuery) : Json :=
  if m.operator.isSome || m.fuzziness.isSome || m.boost.isSome
      || m.minimum_should_match.isSome then
    .obj [("match", .obj [(m.field, .obj (
      [("query", .str m.query)] ++
      optEntry "operator" (m.operator.map .str) ++
      optEntry "fuzziness" (m.fuzziness.map .str) ++
      optEntry "boost" (m.boost.map .num) ++
      optEntry "minimum_should_match" (m.minimum_should_match.map .str)))])]
  else
    .obj [("match", .obj [(m.field, .str m.query)])]

/-- The query::match_phrase::MatchPhraseQuery struct. -/
structure MatchPhraseQuery where
  field : String
  query : String
  slop : Option Nat
  analyzer : Option String
  boost : Option Rat
deriving Repr, DecidableEq

/-- The JSON projection of a MatchPhraseQuery: simple form when no option is
set, otherwise object form with query/analyzer/slop/boost keys. -/
def MatchPhraseQuery.to_json (m : MatchPhraseQuery) : Json :=
  if m.slop.isSome || m.analyzer.isSome || m.boost.isSome then
    .obj [("match_phrase", .obj [(m.field, .obj (
      [("query", .str m.query)] ++
      optEntry "analyzer" (m.analyzer.map .str) ++
      optEntry "slop" (m.slop.map (fun n => .num n)) ++
      optEntry "boost" (m.boost.map .num)))])]
  else
    .obj [("match_phrase", .obj [(m.field, .str m.query)])]

/-- The query::match_phrase_prefix::MatchPhrasePrefixQuery struct. -/
structure MatchPhrasePrefixQuery where
  field : String
  query : String
  max_expansions : Option Nat
  slop : Option Nat
  boost : Option Rat
deriving Repr, DecidableEq

/-- The JSON projection of a MatchPhrasePrefixQuery: always the object form,
with the query key always present. -/
def MatchPhrasePrefixQuery.to_json (m : MatchPhrasePrefixQuery) : Json :=
  .obj [("match_phrase_prefix", .obj [(m.field, .obj (
    [("query", .str m.query)] ++
    optEntry "max_expansions" (m.max_expansions.map (fun n => .num n)) ++
    optEntry "slop" (m.slop.map (fun n => .num n)) ++
    optEntry "boost" (m.boost.map .num)))])]

/-- The query::range::RangeQuery struct. -/
structure RangeQuery where
  field : String
  gte : Option Json
  gt : Option Json
  lte : Option Json
  lt : Option Json
  boost : Option Rat
deriving Repr, DecidableEq

/-- The JSON projection of a RangeQuery: always the object form; every bound
appears only when set. -/
def RangeQuery.to_json (r : RangeQuery) : Json :=
  .obj [("range", .obj [(r.field, .obj (
    optEntry "gte" r.gte ++ optEntry "gt" r.gt ++
    optEntry "lte" r.lte ++ optEntry "lt" r.lt ++
    optEntry "boost" (r.boost.map .num)))])]

/-- The query::wildcard::WildcardQuery struct of the modular revision: field,
value, case_insensitive, optional boost. -/
structure WildcardQuery where
  field : String
  value : String
  case_insensitive : Bool
  boost : Option Rat
deriving Repr, DecidableEq

/-- Create a new WildcardQuery (`WildcardQuery::new` of the modular
revision): all four components are stored verbatim. -/
def WildcardQuery.new (field value : String) (case_insensitive : Bool)
    (boost : Option Rat) : WildcardQuery :=
  ⟨field, value, case_insensitive, boost⟩

/-- The JSON projection of a WildcardQuery: object form, `value` and
`case_insensitive` always present, `boost` only when set. -/
def WildcardQuery.to_json (w : WildcardQuery) : Json :=
  .obj [("wildcard", .obj [(w.field, .obj (
    [("value", .str w.value), ("case_insensitive", .bool w.case_insensitive)] ++
    optEntry "boost" (w.boost.map .num)))])]

/-- The RegexpQueryFlags enum. -/
inductive RegexpQueryFlags where
  | All
  | Anystring
  | Complement
  | Empty
  | Intersection
  | Interval
  | NoneFlag
deriving Repr, DecidableEq

/-- Canonical uppercase name of a flag (the `Display` impl).  The Rust
variant `None` is called `NoneFlag` here because `none` is taken in Lean. -/
def RegexpQueryFlags.name : RegexpQueryFlags → String
  | .All => "ALL"
  | .Anystring => "ANYSTRING"
  | .Complement => "COMPLEMENT"
  | .Empty => "EMPTY"
  | .Intersection => "INTERSECTION"
  | .Interval => "INTERVAL"
  | .NoneFlag => "NONE"

/-- The query::regexp::RegexpQuery struct. -/
structure RegexpQuery where
  field : String
  value : String
  flags : Option (List RegexpQueryFlags)
deriving Repr, DecidableEq

/-- Create a new RegexpQuery (`RegexpQuery::new`). -/
def RegexpQuery.new (field value : String) : RegexpQuery :=
  ⟨field, value, none⟩

/-- Set the flags (`RegexpQuery::flags`). -/
def RegexpQuery.setFlags (r : RegexpQuery) (flags : List RegexpQueryFlags) :
    RegexpQuery :=
  { r with flags := some flags }

/-- The JSON projection of a RegexpQuery: the base object holds `value`; the
`flags` key, joined with a vertical bar, is appended only when the flags list
is present and non-empty. -/
def RegexpQuery.to_json (r : RegexpQuery) : Json :=
  let base := [("value", Json.str r.value)]
  let fieldEntries :=
    match r.flags with
    | some fs =>
        if fs.isEmpty then base
        else base ++
          [("flags", Json.str (String.intercalate "|" (fs.map RegexpQueryFlags.name)))]
    | none => base
  .obj [("regexp", .obj [(r.field, .obj fieldEntries)])]

/-- The ScoreMode enum of function_score. -/
inductive ScoreMode where
  | Multiply | Sum | Avg | First | Max | Min
deriving Repr, DecidableEq

/-- Lowercase serialization token of a ScoreMode (the match in
`FunctionScoreQuery::to_json`). -/
def ScoreMode.token : ScoreMode → String
  | .Multiply => "multiply"
  | .Sum => "sum"
  | .Avg => "avg"
  | .First => "first"
  | .Max => "max"
  | .Min => "min"

/-- The BoostMode enum of function_score. -/
inductive BoostMode where
  | Multiply | Replace | Sum | Avg | Max | Min
deriving Repr, DecidableEq

/-- Lowercase serialization token of a BoostMode. -/
def BoostMode.token : BoostMode → String
  | .Multiply => "multiply"
  | .Replace => "replace"
  | .Sum => "sum"
  | .Avg => "avg"
  | .Max => "max"
  | .Min => "min"

/-- The DecayFunction struct: field, optional origin, scale, optional offset,
optional decay factor. -/
structure DecayFunction where
  field : String
  origin : Option Json
  scale : String
  offset : Option String
  decay : Option Rat
deriving Repr, DecidableEq

/-- Create a new DecayFunction (`DecayFunction::new`). -/
def DecayFunction.new (field scale : String) : DecayFunction :=
  ⟨field, none, scale, none, none⟩

/-- The inner per-field object of a decay function in
`ScoreFunction::to_json`: origin when set, then scale always, then offset and
decay when set. -/
def DecayFunction.fieldEntries (d : DecayFunction) : List (String × Json) :=
  optEntry "origin" d.origin ++
  [("scale", Json.str d.scale)] ++
  optEntry "offset" (d.offset.map .str) ++
  optEntry "decay" (d.decay.map .num)

/-- The FieldValueFactor struct. -/
structure FieldValueFactor where
  field : String
  factor : Option Rat
  modifier : Option String
  missing : Option Rat
deriving Repr, DecidableEq

/-- The RandomScore struct. -/
structure RandomScore where
  seed : Option Json
  field : Option String
deriving Repr, DecidableEq

/-- The ScriptScore struct: script source plus optional params object. -/
structure ScriptScore where
  source : String
  params : Option (List (String × Json))
deriving Repr, DecidableEq

/-- The ScoreFunctionType enum, without the recursive wrapper: Gauss, Exp and
Linear all carry a DecayFunction; Weight carries a bare number. -/
inductive ScoreFunctionType where
  | Gauss (d : DecayFunction)
  | Exp (d : DecayFunction)
  | Linear (d : DecayFunction)
  | FieldValueFactorFn (f : FieldValueFactor)
  | RandomScoreFn (r : RandomScore)
  | ScriptScoreFn (s : ScriptScore)
  | Weight (w : Rat)
deriving Repr, DecidableEq

/-- Entries contributed by the function-type arm of the match in
`ScoreFunction::to_json`.  The Weight arm inserts nothing. -/
def ScoreFunctionType.entries : ScoreFunctionType → List (String × Json)
  | .Gauss d => [("gauss", .obj [(d.field, .obj d.fieldEntries)])]
  | .Exp d => [("exp", .obj [(d.field, .obj d.fieldEntries)])]
  | .Linear d => [("linear", .obj [(d.field, .obj d.fieldEntries)])]
  | .FieldValueFactorFn f => [("field_value_factor", .obj (
      [("field", Json.str f.field)] ++
      optEntry "factor" (f.factor.map .num) ++
      optEntry "modifier" (f.modifier.map .str) ++
      optEntry "missing" (f.missing.map .num)))]
  | .RandomScoreFn r => [("random_score", .obj (
      optEntry "seed" r.seed ++ optEntry "field" (r.field.map .str)))]
  | .ScriptScoreFn s => [("script_score", .obj [("script", .obj (
      [("source", Json.str s.source)] ++
      optEntry "params" (s.params.map .obj)))])]
  | .Weight _ => []

mutual

/-- The QueryType enum of the modular revision (`src/query.rs`): the closed
sum of all leaf and composite query kinds. -/
inductive QueryType where
  | Bool (q : BoolQuery)
  | FunctionScore (q : FunctionScoreQuery)
  | MatchPhrase (q : MatchPhraseQuery)
  | MatchPhrasePrefix (q : MatchPhrasePrefixQuery)
  | Match (q : MatchQuery)
  | Range (q : RangeQuery)
  | Regexp (q : RegexpQuery)
  | Term (q : TermQuery)
  | Terms (q : TermsQuery)
  | WildCard (q : WildcardQuery)
deriving Repr

/-- The BoolQuery struct: four clause buckets plus optional
minimum_should_match and boost. -/
inductive BoolQuery where
  | mk (must must_not should filter : List QueryType)
      (minimum_should_match : Option Int) (boost : Option Rat)
deriving Repr

/-- The FunctionScoreQuery struct. -/
inductive FunctionScoreQuery where
  | mk (query : Option QueryType) (functions : List ScoreFunction)
      (score_mode : Option ScoreMode) (boost_mode : Option BoostMode)
      (max_boost boost min_score : Option Rat)
deriving Repr

/-- The ScoreFunction struct: a function payload plus optional filter query
and optional weight. -/
inductive ScoreFunction where
  | mk (function : ScoreFunctionType) (filter : Option QueryType)
      (weight : Option Rat)
deriving Repr

end

/-- The must bucket of a BoolQuery. -/
def BoolQuery.must : BoolQuery → List QueryType
  | ⟨m, _, _, _, _, _⟩ => m

/-- The must_not bucket of a BoolQuery. -/
def BoolQuery.must_not : BoolQuery → List QueryType
  | ⟨_, mn, _, _, _, _⟩ => mn

/-- The should bucket of a BoolQuery. -/
def BoolQuery.should : BoolQuery → List QueryType
  | ⟨_, _, s, _, _, _⟩ => s

/-- The filter bucket of a BoolQuery. -/
def BoolQuery.filterQ : BoolQuery → List QueryType
  | ⟨_, _, _, f, _, _⟩ => f

/-- The minimum_should_match option of a BoolQuery. -/
def BoolQuery.minimum_should_match : BoolQuery → Option Int
  | ⟨_, _, _, _, msm, _⟩ => msm

/-- The boost option of a BoolQuery. -/
def BoolQuery.boost : BoolQuery → Option Rat
  | ⟨_, _, _, _, _, b⟩ => b

/-- An empty BoolQuery (`BoolQuery::new` / `Default`). -/
def BoolQuery.new : BoolQuery := ⟨[], [], [], [], none, none⟩

/-- Append a query to the must bucket (`BoolQuery::must`). -/
def BoolQuery.addMust : BoolQuery → QueryType → BoolQuery
  | ⟨m, mn, s, f, msm, b⟩, q => ⟨m ++ [q], mn, s, f, msm, b⟩

/-- Append a query to the must_not bucket (`BoolQuery::must_not`). -/
def BoolQuery.addMustNot : BoolQuery → QueryType → BoolQuery
  | ⟨m, mn, s, f, msm, b⟩, q => ⟨m, mn ++ [q], s, f, msm, b⟩

/-- Append a query to the should bucket (`BoolQuery::should`). -/
def BoolQuery.addShould : BoolQuery → QueryType → BoolQuery
  | ⟨m, mn, s, f, msm, b⟩, q => ⟨m, mn, s ++ [q], f, msm, b⟩

/-- Append a query to the filter bucket (`BoolQuery::filter`). -/
def BoolQuery.addFilter : BoolQuery → QueryType → BoolQuery
  | ⟨m, mn, s, f, msm, b⟩, q => ⟨m, mn, s, f ++ [q], msm, b⟩

/-- The query of a FunctionScoreQuery. -/
def FunctionScoreQuery.query : FunctionScoreQuery → Option QueryType
  | ⟨q, _, _, _, _, _, _⟩ => q

/-- The functions list of a FunctionScoreQuery. -/
def FunctionScoreQuery.functions : FunctionScoreQuery → List ScoreFunction
  | ⟨_, fs, _, _, _, _, _⟩ => fs

/-- An empty FunctionScoreQuery (`FunctionScoreQuery::new` / `Default`). -/
def FunctionScoreQuery.new : FunctionScoreQuery :=
  ⟨none, [], none, none, none, none, none⟩

/-- Append a scoring function (`FunctionScoreQuery::function`). -/
def FunctionScoreQuery.addFunction :
    FunctionScoreQuery → ScoreFunction → FunctionScoreQuery
  | ⟨q, fs, sm, bm, mb, b, ms⟩, f => ⟨q, fs ++ [f], sm, bm, mb, b, ms⟩

/-- The function payload of a ScoreFunction. -/
def ScoreFunction.function : ScoreFunction → ScoreFunctionType
  | ⟨fn, _, _⟩ => fn

/-- The filter of a ScoreFunction. -/
def ScoreFunction.filterQ : ScoreFunction → Option QueryType
  | ⟨_, f, _⟩ => f

/-- The weight of a ScoreFunction. -/
def ScoreFunction.weight : ScoreFunction → Option Rat
  | ⟨_, _, w⟩ => w

/-- The weight-only constructor (`ScoreFunction::weight_only`): stores the
number both as the Weight payload and as the outer weight field. -/
def ScoreFunction.weight_only (w : Rat) : ScoreFunction :=
  ⟨.Weight w, none, some w⟩

mutual

/-- The JSON projection of a QueryType: dispatch to the node's own
projection. -/
def QueryType.to_json : QueryType → Json
  | QueryType.Bool q => BoolQuery.to_json q
  | QueryType.FunctionScore q => FunctionScoreQuery.to_json q
  | QueryType.MatchPhrase q => MatchPhraseQuery.to_json q
  | QueryType.MatchPhrasePrefix q => MatchPhrasePrefixQuery.to_json q
  | QueryType.Match q => MatchQuery.to_json q
  | QueryType.Range q => RangeQuery.to_json q
  | QueryType.Regexp q => RegexpQuery.to_json q
  | QueryType.Term q => TermQuery.to_json q
  | QueryType.Terms q => TermsQuery.to_json q
  | QueryType.WildCard q => WildcardQuery.to_json q

/-- The JSON projection of a BoolQuery: each bucket is emitted only when
non-empty, then minimum_should_match and boost only when set. -/
def BoolQuery.to_json : BoolQuery → Json
  | ⟨must, must_not, should, filter, msm, boost⟩ =>
    .obj [("bool", .obj (
      (if must.isEmpty then [] else [("must", Json.arr (jsonList must))]) ++
      (if must_not.isEmpty then []
       else [("must_not", Json.arr (jsonList must_not))]) ++
      (if should.isEmpty then [] else [("should", Json.arr (jsonList should))]) ++
      (if filter.isEmpty then [] else [("filter", Json.arr (jsonList filter))]) ++
      optEntry "minimum_should_match" (msm.map (fun n => .num (n : Rat))) ++
      optEntry "boost" (boost.map .num)))]

/-- The JSON projection of a FunctionScoreQuery: query and functions only when
present/non-empty, then the optional scalar knobs in source order. -/
def FunctionScoreQuery.to_json : FunctionScoreQuery → Json
  | ⟨query, functions, score_mode, boost_mode, max_boost, boost, min_score⟩ =>
    .obj [("function_score", .obj (
      (match query with
       | none => []
       | some q => [("query", QueryType.to_json q)]) ++
      (if functions.isEmpty then []
       else [("functions", Json.arr (sfJsonList functions))]) ++
      optEntry "score_mode" (score_mode.map (fun m => .str m.token)) ++
      optEntry "boost_mode" (boost_mode.map (fun m => .str m.token)) ++
      optEntry "max_boost" (max_boost.map .num) ++
      optEntry "boost" (boost.map .num) ++
      optEntry "min_score" (min_score.map .num)))]

/-- The JSON projection of a ScoreFunction: the function-type entries (none at
all for Weight), then filter and weight when present. -/
def ScoreFunction.to_json : ScoreFunction → Json
  | ⟨fn, filter, weight⟩ =>
    .obj (fn.entries ++
      (match filter with
       | none => []
       | some f => [("filter", QueryType.to_json f)]) ++
      optEntry "weight" (weight.map .num))

/-- Serialize a list of queries in order (`iter().map(|q| q.to_json())`). -/
def jsonList : List QueryType → List Json
  | [] => []
  | q :: qs => QueryType.to_json q :: jsonList qs

/-- Serialize a list of score functions in order. -/
def sfJsonList : List ScoreFunction → List Json
  | [] => []
  | f :: fs => ScoreFunction.to_json f :: sfJsonList fs

end

/-- The SortOrder enum. -/
inductive SortOrder where
  | Asc | Desc
deriving Repr, DecidableEq

/-- Lowercase serialization token of a SortOrder. -/
def SortOrder.token : SortOrder → String
  | .Asc => "asc"
  | .Desc => "desc"

/-- The SortMode enum. -/
inductive SortMode where
  | Min | Max | Sum | Avg | Median
deriving Repr, DecidableEq

/-- Lowercase serde token of a SortMode. -/
def SortMode.token : SortMode → String
  | .Min => "min"
  | .Max => "max"
  | .Sum => "sum"
  | .Avg => "avg"
  | .Median => "median"

/-- The request::sort_type::FieldSort struct of the modular revision: field,
order, optional missing placeholder, optional unmapped_type. -/
structure FieldSort where
  field : String
  order : SortOrder
  missing : Option String
  unmapped_type : Option String
deriving Repr, DecidableEq

/-- Create a new FieldSort (`FieldSort::new`). -/
def FieldSort.new (field : String) (order : SortOrder) : FieldSort :=
  ⟨field, order, none, none⟩

/-- Set the missing value (`FieldSort::missing`). -/
def FieldSort.setMissing (f : FieldSort) (missing : String) : FieldSort :=
  { f with missing := some missing }

/-- Set the unmapped type (`FieldSort::unmapped_type`). -/
def FieldSort.setUnmappedType (f : FieldSort) (u : String) : FieldSort :=
  { f with unmapped_type := some u }

/-- The JSON projection of a FieldSort: simplified form when neither missing
nor unmapped_type is set, otherwise the object form. -/
def FieldSort.to_json (f : FieldSort) : Json :=
  if f.missing.isNone && f.unmapped_type.isNone then
    .obj [(f.field, .str f.order.token)]
  else
    .obj [(f.field, .obj (
      [("order", .str f.order.token)] ++
      optEntry "missing" (f.missing.map .str) ++
      optEntry "unmapped_type" (f.unmapped_type.map .str)))]

/-- The ScoreWithOrderSort struct. -/
structure ScoreWithOrderSort where
  order : SortOrder
deriving Repr, DecidableEq

/-- The JSON projection of a ScoreWithOrderSort. -/
def ScoreWithOrderSort.to_json (s : ScoreWithOrderSort) : Json :=
  .obj [("_score", .str s.order.token)]

/-- The ScriptSortType enum of script sorts. -/
inductive ScriptSortType where
  | Number | StringType | Version
deriving Repr, DecidableEq

/-- Serialization token of a ScriptSortType (the match in
`ScriptSort::to_json`).  The Rust variant `String` is called `StringType`
here because `String` is taken in Lean. -/
def ScriptSortType.token : ScriptSortType → String
  | .Number => "number"
  | .StringType => "string"
  | .Version => "version"

/-- The Lang enum of scripts. -/
inductive Lang where
  | Painless | Expression | Mustache
deriving Repr, DecidableEq

/-- Lowercase serde token of a Lang. -/
def Lang.token : Lang → String
  | .Painless => "painless"
  | .Expression => "expression"
  | .Mustache => "mustache"

/-- The Script struct of script sorts: source, lang, optional params. -/
structure Script where
  source : String
  lang : Lang
  params : Option Json
deriving Repr, DecidableEq

/-- The derived serde serialization of a Script, used by `ScriptSort::to_json`
through `serde_json::to_value` (which cannot fail on this struct): source and
lang always, params only when set. -/
def Script.serde : Script → Json
  | ⟨source, lang, params⟩ =>
    .obj ([("source", .str source), ("lang", .str lang.token)] ++
      optEntry "params" params)

/-- The ScriptSort struct: sort type, script, order, optional mode. -/
structure ScriptSort where
  sort_type : ScriptSortType
  script : Script
  order : SortOrder
  mode : Option SortMode
deriving Repr, DecidableEq

/-- The JSON projection of a ScriptSort. -/
def ScriptSort.to_json (s : ScriptSort) : Json :=
  .obj [("_script", .obj (
    [("type", .str s.sort_type.token),
     ("script", s.script.serde),
     ("order", .str s.order.token)] ++
    optEntry "mode" (s.mode.map (fun m => .str m.token))))]

/-- The SortType enum of the modular revision. -/
inductive SortType where
  | Field (f : FieldSort)
  | Score
  | ScoreWithOrder (s : ScoreWithOrderSort)
  | ScriptSortVariant (s : ScriptSort)
deriving Repr, DecidableEq

/-- The JSON projection of a SortType: the Score variant is the bare string
underscore-score. -/
def SortType.to_json : SortType → Json
  | .Field f => f.to_json
  | .Score => .str "_score"
  | .ScoreWithOrder s => s.to_json
  | .ScriptSortVariant s => s.to_json

/-- The AggregationType enum: a Terms aggregation holds a map of named
sub-aggregations, modelled as an association list. -/
inductive AggregationType where
  | Terms (field : String) (size : Option Nat)
      (sub_aggs : List (String × AggregationType))
  | Cardinality (field : String)
deriving Repr

mutual

/-- The JSON projection of an AggregationType.  For Terms, `aggs` is a sibling
key of `terms`, present only when the sub-aggregation map is non-empty. -/
def AggregationType.to_json : AggregationType → Json
  | .Terms field size sub_aggs =>
    .obj ([("terms", .obj (
        [("field", Json.str field)] ++
        optEntry "size" (size.map (fun n => .num n))))] ++
      (if sub_aggs.isEmpty then []
       else [("aggs", Json.obj (aggEntriesJson sub_aggs))]))
  | .Cardinality field =>
    .obj [("cardinality", .obj [("field", .str field)])]

/-- Serialize a named sub-aggregation map entry-wise. -/
def aggEntriesJson : List (String × AggregationType) → List (String × Json)
  | [] => []
  | (name, agg) :: rest => (name, AggregationType.to_json agg) :: aggEntriesJson rest

end

/-- The HighlightField struct. -/
structure HighlightField where
  highlight_type : Option String
  number_of_fragments : Option Nat
  pre_tags : List String
  post_tags : List String
deriving Repr, DecidableEq

/-- The JSON projection of a HighlightField: each key only when
set/non-empty. -/
def HighlightField.to_json (h : HighlightField) : Json :=
  .obj (
    optEntry "type" (h.highlight_type.map .str) ++
    optEntry "number_of_fragments" (h.number_of_fragments.map (fun n => .num n)) ++
    (if h.pre_tags.isEmpty then []
     else [("pre_tags", Json.arr (h.pre_tags.map .str))]) ++
    (if h.post_tags.isEmpty then []
     else [("post_tags", Json.arr (h.post_tags.map .str))]))

/-- The Highlight struct: a field-name map plus optional
require_field_match.  The HashMap is modelled as an association list. -/
structure Highlight where
  fields : List (String × HighlightField)
  require_field_match : Option Bool
deriving Repr, DecidableEq

/-- The JSON projection of a Highlight: `fields` only when non-empty,
`require_field_match` only when set. -/
def Highlight.to_json (h : Highlight) : Json :=
  .obj (
    (if h.fields.isEmpty then []
     else [("fields", Json.obj (h.fields.map (fun p => (p.1, p.2.to_json))))]) ++
    optEntry "require_field_match" (h.require_field_match.map .bool))

/-- The Collapse struct. -/
structure Collapse where
  field : String
deriving Repr, DecidableEq

/-- The JSON projection of a Collapse. -/
def Collapse.to_json (c : Collapse) : Json :=
  .obj [("field", .str c.field)]

/-- The SearchRequest struct: aggregate root of a request.  The `from` field
is called `from_` because `from` is reserved in Lean; the aggs HashMap is
modelled as an association list. -/
structure SearchRequest where
  query : Option QueryType
  size : Option Nat
  from_ : Option Nat
  sort : List SortType
  aggs : List (String × AggregationType)
  source : List String
  highlight : Option Highlight
  track_total_hits : Option Bool
  collapse : Option Collapse
deriving Repr

/-- An empty SearchRequest (`SearchRequest::new` / `Default`). -/
def SearchRequest.new : SearchRequest :=
  ⟨none, none, none, [], [], [], none, none, none⟩

/-- Append a sort criterion (`SearchRequest::sort`). -/
def SearchRequest.addSort (r : SearchRequest) (s : SortType) : SearchRequest :=
  { r with sort := r.sort ++ [s] }

/-- Set the source fields (`SearchRequest::source_fields`). -/
def SearchRequest.source_fields (r : SearchRequest) (fields : List String) :
    SearchRequest :=
  { r with source := fields }

/-- The JSON projection of a SearchRequest: each key only when its value is
present/non-empty, in source order. -/
def SearchRequest.to_json (r : SearchRequest) : Json :=
  .obj (
    (match r.query with
     | none => []
     | some q => [("query", QueryType.to_json q)]) ++
    optEntry "size" (r.size.map (fun n => .num n)) ++
    optEntry "from" (r.from_.map (fun n => .num n)) ++
    (if r.sort.isEmpty then []
     else [("sort", Json.arr (r.sort.map SortType.to_json))]) ++
    (if r.aggs.isEmpty then []
     else [("aggs", Json.obj (r.aggs.map (fun p => (p.1, p.2.to_json))))]) ++
    (if r.source.isEmpty then []
     else [("_source", Json.arr (r.source.map .str))]) ++
    (match r.highlight with
     | none => []
     | some h => [("highlight", h.to_json)]) ++
    optEntry "track_total_hits" (r.track_total_hits.map .bool) ++
    (match r.collapse with
     | none => []
     | some c => [("collapse", c.to_json)]))

/-- C1: a TermQuery serializes to the simple form when boost is unset and to
the object form (value plus boost, nothing else) when boost is set. -/
theorem termQuery_form_policy (t : TermQuery) :
    (t.boost = none →
      t.to_json = .obj [("term", .obj [(t.field, t.value)])]) ∧
    (∀ b, t.boost = some b →
      t.to_json = .obj [("term", .obj [(t.field,
        .obj [("value", t.value), ("boost", .num b)])])]) := by
  constructor
  · intro h
    simp [TermQuery.to_json, h]
  · intro b h
    simp [TermQuery.to_json, h, optEntry]

/-- Witness for C1 at `Term::new("status","published")` and the same with
`.boost(2.0)`. -/
theorem termQuery_form_policy_witness :
    (TermQuery.new "status" (.str "published")).to_json
      = .obj [("term", .obj [("status", .str "published")])] ∧
    ((TermQuery.new "status" (.str "published")).setBoost 2).to_json
      = .obj [("term", .obj [("status",
          .obj [("value", .str "published"), ("boost", .num 2)])])] :=
  ⟨(termQuery_form_policy (TermQuery.new "status" (.str "published"))).1 rfl,
   (termQuery_form_policy
      ((TermQuery.new "status" (.str "published")).setBoost 2)).2 2 rfl⟩

theorem jsonList_eq_map (qs : List QueryType) :
    jsonList qs = qs.map QueryType.to_json := by
  induction qs with
  | nil => rfl
  | cons q qs ih => simp [jsonList, ih]

theorem sfJsonList_eq_map (fs : List ScoreFunction) :
    sfJsonList fs = fs.map ScoreFunction.to_json := by
  induction fs with
  | nil => rfl
  | cons f fs ih => simp [sfJsonList, ih]

theorem aggEntriesJson_eq_map (aggs : List (String × AggregationType)) :
    aggEntriesJson aggs = aggs.map (fun p => (p.1, AggregationType.to_json p.2)) := by
  induction aggs with
  | nil => rfl
  | cons a rest ih => simp [aggEntriesJson, ih]

/-- C2: empty collection-valued fields (bool clause buckets, the functions
list, the sort list, the aggregation map, the source-field list, the
highlight fields map) are entirely absent from the serialized output, and the
all-empty BoolQuery serializes to an empty bool object. -/
theorem empty_collections_omitted :
    (∀ b : BoolQuery,
      ((b.to_json.getD "bool").objHasKey "must" = !b.must.isEmpty) ∧
      ((b.to_json.getD "bool").objHasKey "must_not" = !b.must_not.isEmpty) ∧
      ((b.to_json.getD "bool").objHasKey "should" = !b.should.isEmpty) ∧
      ((b.to_json.getD "bool").objHasKey "filter" = !b.filterQ.isEmpty)) ∧
    (∀ f : FunctionScoreQuery,
      (f.to_json.getD "function_score").objHasKey "functions"
        = !f.functions.isEmpty) ∧
    (∀ r : SearchRequest,
      (r.to_json.objHasKey "sort" = !r.sort.isEmpty) ∧
      (r.to_json.objHasKey "aggs" = !r.aggs.isEmpty) ∧
      (r.to_json.objHasKey "_source" = !r.source.isEmpty)) ∧
    (∀ h : Highlight, h.to_json.objHasKey "fields" = !h.fields.isEmpty) ∧
    BoolQuery.new.to_json = .obj [("bool", .obj [])] := by
  refine ⟨?_, ?_, ?_, ?_, rfl⟩
  · intro b
    obtain ⟨m, mn, s, f, msm, bo⟩ := b
    refine ⟨?_, ?_, ?_, ?_⟩ <;>
      simp +decide [BoolQuery.to_json, BoolQuery.must, BoolQuery.must_not,
        BoolQuery.should, BoolQuery.filterQ, Json.getD, Json.objHasKey]
  · intro f
    obtain ⟨q, fs, sm, bm, mb, bo, ms⟩ := f
    cases q <;>
      simp +decide [FunctionScoreQuery.to_json, FunctionScoreQuery.functions,
        Json.getD, Json.objHasKey]
  · intro r
    obtain ⟨q, sz, fr, srt, ag, src, hl, tth, cp⟩ := r
    refine ⟨?_, ?_, ?_⟩ <;> cases q <;> cases hl <;> cases cp <;>
      simp +decide [SearchRequest.to_json, Json.objHasKey]
  · intro h
    obtain ⟨fs, rfm⟩ := h
    simp +decide [Highlight.to_json, Json.objHasKey]

theorem foldl_addMust (qs : List QueryType) (m mn s f : List QueryType)
    (msm : Option Int) (b : Option Rat) :
    List.foldl BoolQuery.addMust ⟨m, mn, s, f, msm, b⟩ qs
      = ⟨m ++ qs, mn, s, f, msm, b⟩ := by
  induction qs generalizing m with
  | nil => simp
  | cons q qs ih => simp [BoolQuery.addMust, ih]

theorem foldl_addMustNot (qs : List QueryType) (m mn s f : List QueryType)
    (msm : Option Int) (b : Option Rat) :
    List.foldl BoolQuery.addMustNot ⟨m, mn, s, f, msm, b⟩ qs
      = ⟨m, mn ++ qs, s, f, msm, b⟩ := by
  induction qs generalizing mn with
  | nil => simp
  | cons q qs ih => simp [BoolQuery.addMustNot, ih]

theorem foldl_addShould (qs : List QueryType) (m mn s f : List QueryType)
    (msm : Option Int) (b : Option Rat) :
    List.foldl BoolQuery.addShould ⟨m, mn, s, f, msm, b⟩ qs
      = ⟨m, mn, s ++ qs, f, msm, b⟩ := by
  induction qs generalizing s with
  | nil => simp
  | cons q qs ih => simp [BoolQuery.addShould, ih]

theorem foldl_addFilter (qs : List QueryType) (m mn s f : List QueryType)
    (msm : Option Int) (b : Option Rat) :
    List.foldl BoolQuery.addFilter ⟨m, mn, s, f, msm, b⟩ qs
      = ⟨m, mn, s, f ++ qs, msm, b⟩ := by
  induction qs generalizing f with
  | nil => simp
  | cons q qs ih => simp [BoolQuery.addFilter, ih]

theorem foldl_addSort (ss : List SortType) (r : SearchRequest) :
    List.foldl SearchRequest.addSort r ss = { r with sort := r.sort ++ ss } := by
  induction ss generalizing r with
  | nil => simp
  | cons s ss ih => simp [SearchRequest.addSort, ih]

theorem foldl_addFunction (fs : List ScoreFunction)
    (q : Option QueryType) (fs₀ : List ScoreFunction) (sm : Option ScoreMode)
    (bm : Option BoostMode) (mb b ms : Option Rat) :
    List.foldl FunctionScoreQuery.addFunction ⟨q, fs₀, sm, bm, mb, b, ms⟩ fs
      = ⟨q, fs₀ ++ fs, sm, bm, mb, b, ms⟩ := by
  induction fs generalizing fs₀ with
  | nil => simp
  | cons f fs ih => simp [FunctionScoreQuery.addFunction, ih]

/-- C5: sequence-valued outputs preserve insertion order: the serialized array
of each bool clause bucket, the sort array, the functions array and the
source-field array list the inserted elements in insertion order. -/
theorem insertion_order_preserved (qs : List QueryType) (ss : List SortType)
    (fs : List ScoreFunction) (src : List String) :
    (qs ≠ [] →
      (List.foldl BoolQuery.addMust BoolQuery.new qs).to_json
        = .obj [("bool", .obj [("must", .arr (qs.map QueryType.to_json))])] ∧
      (List.foldl BoolQuery.addMustNot BoolQuery.new qs).to_json
        = .obj [("bool", .obj [("must_not", .arr (qs.map QueryType.to_json))])] ∧
      (List.foldl BoolQuery.addShould BoolQuery.new qs).to_json
        = .obj [("bool", .obj [("should", .arr (qs.map QueryType.to_json))])] ∧
      (List.foldl BoolQuery.addFilter BoolQuery.new qs).to_json
        = .obj [("bool", .obj [("filter", .arr (qs.map QueryType.to_json))])]) ∧
    (ss ≠ [] →
      (List.foldl SearchRequest.addSort SearchRequest.new ss).to_json
        = .obj [("sort", .arr (ss.map SortType.to_json))]) ∧
    (fs ≠ [] →
      (List.foldl FunctionScoreQuery.addFunction FunctionScoreQuery.new fs).to_json
        = .obj [("function_score",
            .obj [("functions", .arr (fs.map ScoreFunction.to_json))])]) ∧
    (src ≠ [] →
      (SearchRequest.new.source_fields src).to_json
        = .obj [("_source", .arr (src.map .str))]) := by
  refine ⟨?_, ?_, ?_, ?_⟩
  · intro hqs
    refine ⟨?_, ?_, ?_, ?_⟩ <;>
      simp [BoolQuery.new, foldl_addMust, foldl_addMustNot, foldl_addShould,
        foldl_addFilter, BoolQuery.to_json, hqs, jsonList_eq_map, optEntry]
  · intro hss
    simp [SearchRequest.new, foldl_addSort, SearchRequest.to_json, hss, optEntry]
  · intro hfs
    simp [FunctionScoreQuery.new, foldl_addFunction, FunctionScoreQuery.to_json,
      hfs, sfJsonList_eq_map, optEntry]
  · intro hsrc
    simp [SearchRequest.new, SearchRequest.source_fields, SearchRequest.to_json,
      hsrc, optEntry]

/-- Witness for C5 at the spec's sort example (updated_at desc, document_id
asc) and singleton lists for the other sequences. -/
theorem insertion_order_preserved_witness :
    (List.foldl SearchRequest.addSort SearchRequest.new
        [SortType.Field (FieldSort.new "updated_at" SortOrder.Desc),
         SortType.Field (FieldSort.new "document_id" SortOrder.Asc)]).to_json
      = .obj [("sort", .arr
          [.obj [("updated_at", .str "desc")],
           .obj [("document_id", .str "asc")]])] ∧
    (List.foldl BoolQuery.addMust BoolQuery.new
        [QueryType.Term (TermQuery.new "a" (.str "x")),
         QueryType.Term (TermQuery.new "b" (.str "y"))]).to_json
      = .obj [("bool", .obj [("must", .arr
          [.obj [("term", .obj [("a", .str "x")])],
           .obj [("term", .obj [("b", .str "y")])]])])] := by
  constructor
  · have h := (insertion_order_preserved []
      [SortType.Field (FieldSort.new "updated_at" SortOrder.Desc),
       SortType.Field (FieldSort.new "document_id" SortOrder.Asc)] [] []).2.1
      (by decide)
    rw [h]; rfl
  · have h := ((insertion_order_preserved
      [QueryType.Term (TermQuery.new "a" (.str "x")),
       QueryType.Term (TermQuery.new "b" (.str "y"))] [] [] []).1
      (by simp)).1
    rw [h]; rfl

/-- C6: a FieldSort serializes to the simplified form exactly when neither
missing nor unmapped_type is set, and otherwise to the object form in which
missing and unmapped_type appear only when set. -/
theorem fieldSort_form_policy (f : FieldSort) :
    (f.missing = none ∧ f.unmapped_type = none →
      f.to_json = .obj [(f.field, .str f.order.token)]) ∧
    (f.missing ≠ none ∨ f.unmapped_type ≠ none →
      f.to_json = .obj [(f.field, .obj (
        [("order", .str f.order.token)] ++
        optEntry "missing" (f.missing.map .str) ++
        optEntry "unmapped_type" (f.unmapped_type.map .str)))]) := by
  constructor
  · rintro ⟨h₁, h₂⟩
    simp [FieldSort.to_json, h₁, h₂]
  · intro h
    have : ¬(f.missing.isNone && f.unmapped_type.isNone) = true := by
      rcases h with h | h <;> cases hm : f.missing <;> cases hu : f.unmapped_type <;>
        simp_all
    simp [FieldSort.to_json, this]

/-- Witness for C6 at the spec's example: a plain desc sort on timestamp, and
the same sort after setting missing to the last-placeholder. -/
theorem fieldSort_form_policy_witness :
    (FieldSort.new "timestamp" SortOrder.Desc).to_json
      = .obj [("timestamp", .str "desc")] ∧
    ((FieldSort.new "timestamp" SortOrder.Desc).setMissing "_last").to_json
      = .obj [("timestamp", .obj
          [("order", .str "desc"), ("missing", .str "_last")])] := by
  constructor
  · exact (fieldSort_form_policy (FieldSort.new "timestamp" SortOrder.Desc)).1
      ⟨rfl, rfl⟩
  · have h := (fieldSort_form_policy
      ((FieldSort.new "timestamp" SortOrder.Desc).setMissing "_last")).2
      (Or.inl (by decide))
    rw [h]; rfl

/-- C7: a RegexpQuery serializes to a value/flags object under the field name;
the flags key is the pipe-joined list of canonical uppercase flag names and is
present exactly when the flags list is present and non-empty. -/
theorem regexp_flags_policy (r : RegexpQuery) :
    (r.flags = none ∨ r.flags = some [] →
      r.to_json = .obj [("regexp", .obj [(r.field,
        .obj [("value", .str r.value)])])]) ∧
    (∀ fs, r.flags = some fs → fs ≠ [] →
      r.to_json = .obj [("regexp", .obj [(r.field,
        .obj [("value", .str r.value),
              ("flags", .str (String.intercalate "|"
                (fs.map RegexpQueryFlags.name)))])])]) ∧
    ((RegexpQuery.new "content" "pat").setFlags
        [RegexpQueryFlags.Intersection, RegexpQueryFlags.Empty]).to_json
      = .obj [("regexp", .obj [("content",
          .obj [("value", .str "pat"),
                ("flags", .str "INTERSECTION|EMPTY")])])] := by
  refine ⟨?_, ?_, by rfl⟩
  · rintro (h | h) <;> simp [RegexpQuery.to_json, h]
  · intro fs h hne
    simp [RegexpQuery.to_json, h, hne]

/-- Witness for C7: a flagless regexp query has no flags key; a query whose
flags list is present but empty also has none; a non-empty flags list yields
the joined uppercase names. -/
theorem regexp_flags_policy_witness :
    (RegexpQuery.new "content" "pat").to_json
      = .obj [("regexp", .obj [("content", .obj [("value", .str "pat")])])] ∧
    ((RegexpQuery.new "content" "pat").setFlags []).to_json
      = .obj [("regexp", .obj [("content", .obj [("value", .str "pat")])])] ∧
    ((RegexpQuery.new "c" "v").setFlags [RegexpQueryFlags.All]).to_json
      = .obj [("regexp", .obj [("c",
          .obj [("value", .str "v"), ("flags", .str "ALL")])])] := by
  refine ⟨?_, ?_, ?_⟩
  · exact (regexp_flags_policy (RegexpQuery.new "content" "pat")).1 (Or.inl rfl)
  · exact (regexp_flags_policy
      ((RegexpQuery.new "content" "pat").setFlags [])).1 (Or.inr rfl)
  · have h := ((regexp_flags_policy
      ((RegexpQuery.new "c" "v").setFlags [RegexpQueryFlags.All])).2.1
      [RegexpQueryFlags.All] rfl (by decide))
    rw [h]; rfl

/-- C8: a WildcardQuery built by its constructor serializes to the object form
holding the verbatim value string, an always-present case_insensitive flag,
and a boost key only when a boost was given. -/
theorem wildcard_to_json_shape (f v : String) (ci : Bool) (b : Option Rat) :
    (b = none →
      (WildcardQuery.new f v ci b).to_json
        = .obj [("wildcard", .obj [(f, .obj
            [("value", .str v), ("case_insensitive", .bool ci)])])]) ∧
    (∀ x, b = some x →
      (WildcardQuery.new f v ci b).to_json
        = .obj [("wildcard", .obj [(f, .obj
            [("value", .str v), ("case_insensitive", .bool ci),
             ("boost", .num x)])])]) := by
  constructor
  · intro h
    simp [WildcardQuery.new, WildcardQuery.to_json, h, optEntry]
  · intro x h
    simp [WildcardQuery.new, WildcardQuery.to_json, h, optEntry]

/-- Witness for C8 at a wildcard query on name with and without boost. -/
theorem wildcard_to_json_shape_witness :
    (WildcardQuery.new "name" "*ab*" true none).to_json
      = .obj [("wildcard", .obj [("name", .obj
          [("value", .str "*ab*"), ("case_insensitive", .bool true)])])] ∧
    (WildcardQuery.new "name" "*ab*" false (some 2)).to_json
      = .obj [("wildcard", .obj [("name", .obj
          [("value", .str "*ab*"), ("case_insensitive", .bool false),
           ("boost", .num 2)])])] :=
  ⟨(wildcard_to_json_shape "name" "*ab*" true none).1 rfl,
   (wildcard_to_json_shape "name" "*ab*" false (some 2)).2 2 rfl⟩

/-- C9: the JSON projection is total on every node type and always yields a
structured value — an object for every query, request, aggregation, highlight
and collapse node, and either an object or the bare score string for a sort.
Totality itself is witnessed by the fact that every projection in this file is
a total Lean function. -/
theorem to_json_total :
    (∀ q : QueryType, q.to_json.isObj = true) ∧
    (∀ r : SearchRequest, r.to_json.isObj = true) ∧
    (∀ a : AggregationType, a.to_json.isObj = true) ∧
    (∀ s : SortType, s.to_json.isObj = true ∨ s.to_json = .str "_score") ∧
    (∀ h : Highlight, h.to_json.isObj = true) ∧
    (∀ c : Collapse, c.to_json.isObj = true) := by
  refine ⟨?_, ?_, ?_, ?_, ?_, ?_⟩
  · intro q
    cases q with
    | Bool x =>
        obtain ⟨m, mn, s, f, msm, b⟩ := x
        simp only [QueryType.to_json, BoolQuery.to_json, Json.isObj]
    | FunctionScore x =>
        obtain ⟨qq, fs, sm, bm, mb, b, ms⟩ := x
        simp only [QueryType.to_json, FunctionScoreQuery.to_json, Json.isObj]
    | MatchPhrase x =>
        simp only [QueryType.to_json, MatchPhraseQuery.to_json]
        split <;> rfl
    | MatchPhrasePrefix x => simp only [QueryType.to_json]; rfl
    | Match x =>
        simp only [QueryType.to_json, MatchQuery.to_json]
        split <;> rfl
    | Range x => simp only [QueryType.to_json]; rfl
    | Regexp x => simp only [QueryType.to_json]; rfl
    | Term x =>
        simp only [QueryType.to_json, TermQuery.to_json]
        split <;> rfl
    | Terms x =>
        simp only [QueryType.to_json, TermsQuery.to_json]
        split <;> rfl
    | WildCard x => simp only [QueryType.to_json]; rfl
  · intro r; rfl
  · intro a
    cases a with
    | Terms f s sub =>
        simp only [AggregationType.to_json, Json.isObj]
    | Cardinality f =>
        simp only [AggregationType.to_json, Json.isObj]
  · intro s
    cases s with
    | Field f =>
        left
        simp only [SortType.to_json, FieldSort.to_json]
        split <;> rfl
    | Score => right; rfl
    | ScoreWithOrder s => left; rfl
    | ScriptSortVariant s => left; rfl
  · intro h; rfl
  · intro c; rfl

/-- C4: the spec's gauss example serializes exactly as stated, and for every
decay function (gauss, exp, linear) the per-field object always contains the
scale key while origin, offset and decay are present exactly when set. -/
theorem decay_function_shape :
    (ScoreFunction.mk
        (.Gauss ⟨"updated_at_seconds", some (.str "now"), "21d",
          some "3d", some 0.5⟩) none (some 1.3)).to_json
      = .obj [("gauss", .obj [("updated_at_seconds", .obj
          [("origin", .str "now"), ("scale", .str "21d"),
           ("offset", .str "3d"), ("decay", .num 0.5)])]),
          ("weight", .num 1.3)] ∧
    (∀ d : DecayFunction, ∀ filt w,
      let j := (ScoreFunction.mk (.Gauss d) filt w).to_json
      ((j.getD "gauss").getD d.field).objHasKey "scale" = true ∧
      ((j.getD "gauss").getD d.field).objHasKey "origin" = d.origin.isSome ∧
      ((j.getD "gauss").getD d.field).objHasKey "offset" = d.offset.isSome ∧
      ((j.getD "gauss").getD d.field).objHasKey "decay" = d.decay.isSome) ∧
    (∀ d : DecayFunction, ∀ filt w,
      let j := (ScoreFunction.mk (.Exp d) filt w).to_json
      ((j.getD "exp").getD d.field).objHasKey "scale" = true ∧
      ((j.getD "exp").getD d.field).objHasKey "origin" = d.origin.isSome ∧
      ((j.getD "exp").getD d.field).objHasKey "offset" = d.offset.isSome ∧
      ((j.getD "exp").getD d.field).objHasKey "decay" = d.decay.isSome) ∧
    (∀ d : DecayFunction, ∀ filt w,
      let j := (ScoreFunction.mk (.Linear d) filt w).to_json
      ((j.getD "linear").getD d.field).objHasKey "scale" = true ∧
      ((j.getD "linear").getD d.field).objHasKey "origin" = d.origin.isSome ∧
      ((j.getD "linear").getD d.field).objHasKey "offset" = d.offset.isSome ∧
      ((j.getD "linear").getD d.field).objHasKey "decay" = d.decay.isSome) := by
  refine ⟨by rfl, ?_, ?_, ?_⟩ <;>
    (intro d filt w
     rw [ScoreFunction.to_json.eq_def]
     simp +decide [ScoreFunctionType.entries,
       DecayFunction.fieldEntries, Json.getD, Json.objHasKey])

/-- C10: a Weight score function emits no function-type key and never
serializes the wrapped number: the output depends only on the outer filter and
weight fields, is empty when both are unset, and the weight_only constructor
sets the outer weight so that its output is exactly the weight key. -/
theorem weight_function_shape :
    (∀ x filt w, (ScoreFunction.mk (.Weight x) filt w).to_json
        = (ScoreFunction.mk (.Weight 0) filt w).to_json) ∧
    (∀ x, (ScoreFunction.mk (.Weight x) none none).to_json = .obj []) ∧
    (∀ x f, (ScoreFunction.mk (.Weight x) (some f) none).to_json
        = .obj [("filter", f.to_json)]) ∧
    (∀ x w, (ScoreFunction.mk (.Weight x) none (some w)).to_json
        = .obj [("weight", .num w)]) ∧
    (∀ x f w, (ScoreFunction.mk (.Weight x) (some f) (some w)).to_json
        = .obj [("filter", f.to_json), ("weight", .num w)]) ∧
    (∀ x, ScoreFunction.weight_only x
        = ScoreFunction.mk (.Weight x) none (some x)) ∧
    (∀ x, (ScoreFunction.weight_only x).to_json = .obj [("weight", .num x)]) := by
  refine ⟨?_, ?_, ?_, ?_, ?_, fun x => rfl, ?_⟩
  · intro x filt w
    rw [ScoreFunction.to_json.eq_def, ScoreFunction.to_json.eq_def]
    rfl
  · intro x
    rw [ScoreFunction.to_json.eq_def]
    rfl
  · intro x f
    rw [ScoreFunction.to_json.eq_def]
    rfl
  · intro x w
    rw [ScoreFunction.to_json.eq_def]
    rfl
  · intro x f w
    rw [ScoreFunction.to_json.eq_def]
    rfl
  · intro x
    rw [ScoreFunction.to_json.eq_def]
    rfl

/-! ## The single-file revision (src/lib.rs) and its serde round-trip

The lib.rs revision derives `Serialize` and `Deserialize` on the whole model.
Its `QueryType` additionally has a unit `MatchAll` variant, and its
`WildcardQuery` has no boost field.  The serde representation is the derived
one — adjacently tagged enums (`tag = "type"`, `content = "params"`), an
untagged `ScoreFunctionType` flattened into `ScoreFunction` — and is distinct
from the `to_json` wire projection.  `serde_json::to_value` can fail: it
rejects `#[serde(flatten)]` on a value that does not serialize as a map,
which is the case for the `Weight(f64)` variant; serializers therefore
return `Option Json`.  Deserializers return `Option` as the model of a
recoverable serde error. -/
namespace Lib

/-- The lib.rs WildcardQuery struct: field, value, case_insensitive — and no
boost field. -/
structure WildcardQuery where
  field : String
  value : String
  case_insensitive : Bool
deriving Repr, DecidableEq

mutual

/-- The lib.rs QueryType enum, including the unit MatchAll variant. -/
inductive QueryType where
  | Term (q : TermQuery)
  | Terms (q : TermsQuery)
  | Match (q : MatchQuery)
  | MatchPhrase (q : MatchPhraseQuery)
  | MatchPhrasePrefix (q : MatchPhrasePrefixQuery)
  | Bool (q : BoolQuery)
  | Range (q : RangeQuery)
  | MatchAll
  | WildCard (q : WildcardQuery)
  | Regexp (q : RegexpQuery)
  | FunctionScore (q : FunctionScoreQuery)
deriving Repr

/-- The lib.rs BoolQuery struct. -/
inductive BoolQuery where
  | mk (must must_not should filter : List QueryType)
      (minimum_should_match : Option Int) (boost : Option Rat)
deriving Repr

/-- The lib.rs FunctionScoreQuery struct. -/
inductive FunctionScoreQuery where
  | mk (query : Option QueryType) (functions : List ScoreFunction)
      (score_mode : Option ScoreMode) (boost_mode : Option BoostMode)
      (max_boost boost min_score : Option Rat)
deriving Repr

/-- The lib.rs ScoreFunction struct: flattened function, optional filter,
optional weight. -/
inductive ScoreFunction where
  | mk (function : ScoreFunctionType) (filter : Option QueryType)
      (weight : Option Rat)
deriving Repr

end

/-- Derived serde serialization of a TermQuery. -/
def serTerm (t : TermQuery) : Json :=
  .obj ([("field", .str t.field), ("value", t.value)] ++
    optEntry "boost" (t.boost.map .num))

/-- Derived serde serialization of a TermsQuery. -/
def serTerms (t : TermsQuery) : Json :=
  .obj ([("field", .str t.field), ("values", .arr t.values)] ++
    optEntry "boost" (t.boost.map .num))

/-- Derived serde serialization of a MatchQuery. -/
def serMatch (m : MatchQuery) : Json :=
  .obj ([("field", .str m.field), ("query", .str m.query)] ++
    optEntry "operator" (m.operator.map .str) ++
    optEntry "fuzziness" (m.fuzziness.map .str) ++
    optEntry "boost" (m.boost.map .num) ++
    optEntry "minimum_should_match" (m.minimum_should_match.map .str))

/-- Derived serde serialization of a MatchPhraseQuery (field order of the
lib.rs struct: field, query, slop, analyzer, boost). -/
def serMatchPhrase (m : MatchPhraseQuery) : Json :=
  .obj ([("field", .str m.field), ("query", .str m.query)] ++
    optEntry "slop" (m.slop.map (fun n => .num n)) ++
    optEntry "analyzer" (m.analyzer.map .str) ++
    optEntry "boost" (m.boost.map .num))

/-- Derived serde serialization of a MatchPhrasePrefixQuery. -/
def serMatchPhrasePfx (m : MatchPhrasePrefixQuery) : Json :=
  .obj ([("field", .str m.field), ("query", .str m.query)] ++
    optEntry "max_expansions" (m.max_expansions.map (fun n => .num n)) ++
    optEntry "slop" (m.slop.map (fun n => .num n)) ++
    optEntry "boost" (m.boost.map .num))

/-- Derived serde serialization of a RangeQuery. -/
def serRange (r : RangeQuery) : Json :=
  .obj ([("field", .str r.field)] ++
    optEntry "gte" r.gte ++ optEntry "gt" r.gt ++
    optEntry "lte" r.lte ++ optEntry "lt" r.lt ++
    optEntry "boost" (r.boost.map .num))

/-- Derived serde serialization of the lib.rs WildcardQuery. -/
def serWildcard (w : WildcardQuery) : Json :=
  .obj [("field", .str w.field), ("value", .str w.value),
    ("case_insensitive", .bool w.case_insensitive)]

/-- Derived serde serialization of a RegexpQuery.  The flags field has no
skip attribute in lib.rs, so a missing flags list is serialized as null. -/
def serRegexp (r : RegexpQuery) : Json :=
  .obj [("field", .str r.field), ("value", .str r.value),
    ("flags", match r.flags with
      | none => .null
      | some fs => .arr (fs.map (fun f => .str f.name)))]

/-- The serde entry list of a DecayFunction. -/
def serDecayEntries (d : DecayFunction) : List (String × Json) :=
  [("field", .str d.field)] ++
  optEntry "origin" d.origin ++
  [("scale", .str d.scale)] ++
  optEntry "offset" (d.offset.map .str) ++
  optEntry "decay" (d.decay.map .num)

/-- Derived serde serialization of a DecayFunction. -/
def serDecay (d : DecayFunction) : Json := .obj (serDecayEntries d)

/-- The serde entry list of a FieldValueFactor. -/
def serFVFEntries (f : FieldValueFactor) : List (String × Json) :=
  [("field", .str f.field)] ++
  optEntry "factor" (f.factor.map .num) ++
  optEntry "modifier" (f.modifier.map .str) ++
  optEntry "missing" (f.missing.map .num)

/-- Derived serde serialization of a FieldValueFactor. -/
def serFVF (f : FieldValueFactor) : Json := .obj (serFVFEntries f)

/-- The serde entry list of a RandomScore. -/
def serRandomScoreEntries (r : RandomScore) : List (String × Json) :=
  optEntry "seed" r.seed ++ optEntry "field" (r.field.map .str)

/-- Derived serde serialization of a RandomScore. -/
def serRandomScore (r : RandomScore) : Json := .obj (serRandomScoreEntries r)

/-- The serde entry list of a ScriptScore. -/
def serScriptScoreEntries (s : ScriptScore) : List (String × Json) :=
  [("source", .str s.source)] ++ optEntry "params" (s.params.map .obj)

/-- Derived serde serialization of a ScriptScore. -/
def serScriptScore (s : ScriptScore) : Json := .obj (serScriptScoreEntries s)

/-- The flattened entry list of an untagged ScoreFunctionType, as produced by
`#[serde(flatten)]`: the payload struct's own serde fields inline.  The
Weight variant serializes as a bare number, which `flatten` rejects, so its
result is none. -/
def serSFTypeEntries : ScoreFunctionType → Option (List (String × Json))
  | .Gauss d => some (serDecayEntries d)
  | .Exp d => some (serDecayEntries d)
  | .Linear d => some (serDecayEntries d)
  | .FieldValueFactorFn f => some (serFVFEntries f)
  | .RandomScoreFn r => some (serRandomScoreEntries r)
  | .ScriptScoreFn s => some (serScriptScoreEntries s)
  | .Weight _ => none

/-- An adjacently tagged enum representation (`tag = "type"`,
`content = "params"`). -/
def tagged (t : String) (params : Json) : Json :=
  .obj [("type", .str t), ("params", params)]

/-- The object a FunctionScoreQuery serializes to, given the query entry and
the serialized functions: the functions field is skipped when the Vec is
empty, every optional scalar is skipped when none. -/
def serFSQbody (qEntry : List (String × Json)) (functions : List ScoreFunction)
    (jfs : List Json) (sm : Option ScoreMode) (bm : Option BoostMode)
    (mb b ms : Option Rat) : Json :=
  .obj (qEntry ++
    (if functions.isEmpty then [] else [("functions", Json.arr jfs)]) ++
    optEntry "score_mode" (sm.map (fun m => .str m.token)) ++
    optEntry "boost_mode" (bm.map (fun m => .str m.token)) ++
    optEntry "max_boost" (mb.map .num) ++
    optEntry "boost" (b.map .num) ++
    optEntry "min_score" (ms.map .num))

/-- The object a ScoreFunction serializes to: its flattened payload entries,
the filter entry when present, the weight when set. -/
def serSFbody (es fEntry : List (String × Json)) (weight : Option Rat) :
    Json :=
  .obj (es ++ fEntry ++ optEntry "weight" (weight.map .num))

mutual

/-- Derived serde serialization of the lib.rs QueryType (adjacently
tagged). -/
def serQuery : QueryType → Option Json
  | .Term t => some (tagged "Term" (serTerm t))
  | .Terms t => some (tagged "Terms" (serTerms t))
  | .Match m => some (tagged "Match" (serMatch m))
  | .MatchPhrase m => some (tagged "MatchPhrase" (serMatchPhrase m))
  | .MatchPhrasePrefix m => some (tagged "MatchPhrasePrefix" (serMatchPhrasePfx m))
  | .Bool b =>
      match serBool b with
      | none => none
      | some p => some (tagged "Bool" p)
  | .Range r => some (tagged "Range" (serRange r))
  | .MatchAll => some (.obj [("type", .str "MatchAll")])
  | .WildCard w => some (tagged "WildCard" (serWildcard w))
  | .Regexp r => some (tagged "Regexp" (serRegexp r))
  | .FunctionScore f =>
      match serFSQ f with
      | none => none
      | some p => some (tagged "FunctionScore" p)

/-- Derived serde serialization of the lib.rs BoolQuery: each Vec field is
skipped when empty. -/
def serBool : BoolQuery → Option Json
  | .mk must must_not should filter msm boost =>
      match serQList must with
      | none => none
      | some jm =>
        match serQList must_not with
        | none => none
        | some jmn =>
          match serQList should with
          | none => none
          | some js =>
            match serQList filter with
            | none => none
            | some jf =>
              some (.obj (
                (if must.isEmpty then [] else [("must", Json.arr jm)]) ++
                (if must_not.isEmpty then [] else [("must_not", Json.arr jmn)]) ++
                (if should.isEmpty then [] else [("should", Json.arr js)]) ++
                (if filter.isEmpty then [] else [("filter", Json.arr jf)]) ++
                optEntry "minimum_should_match"
                  (msm.map (fun n => Json.num (n : Rat))) ++
                optEntry "boost" (boost.map Json.num)))

/-- Derived serde serialization of the lib.rs FunctionScoreQuery. -/
def serFSQ : FunctionScoreQuery → Option Json
  | .mk none functions sm bm mb b ms =>
      match serSFList functions with
      | none => none
      | some jfs => some (serFSQbody [] functions jfs sm bm mb b ms)
  | .mk (some q) functions sm bm mb b ms =>
      match serQuery q with
      | none => none
      | some jq =>
        match serSFList functions with
        | none => none
        | some jfs =>
          some (serFSQbody [("query", jq)] functions jfs sm bm mb b ms)

/-- Derived serde serialization of the lib.rs ScoreFunction: flattened
function entries, then filter and weight. -/
def serSF : ScoreFunction → Option Json
  | .mk fn none weight =>
      match serSFTypeEntries fn with
      | none => none
      | some es => some (serSFbody es [] weight)
  | .mk fn (some f) weight =>
      match serSFTypeEntries fn with
      | none => none
      | some es =>
        match serQuery f with
        | none => none
        | some jf => some (serSFbody es [("filter", jf)] weight)

/-- Serialize a list of queries, failing if any element fails. -/
def serQList : List QueryType → Option (List Json)
  | [] => some []
  | q :: qs =>
      match serQuery q with
      | none => none
      | some j =>
        match serQList qs with
        | none => none
        | some js => some (j :: js)

/-- Serialize a list of score functions, failing if any element fails. -/
def serSFList : List ScoreFunction → Option (List Json)
  | [] => some []
  | f :: fs =>
      match serSF f with
      | none => none
      | some j =>
        match serSFList fs with
        | none => none
        | some js => some (j :: js)

end


/-- Look a key up in a serde map (first occurrence, as serde_json does). -/
def getField (kvs : List (String × Json)) (k : String) : Option Json :=
  (kvs.find? (fun p => p.1 == k)).map Prod.snd

theorem getField_sizeOf_lt {kvs : List (String × Json)} {k : String}
    {v : Json} (h : getField kvs k = some v) : 1 + sizeOf v < sizeOf kvs := by
  induction kvs with
  | nil => simp [getField] at h
  | cons p rest ih =>
      obtain ⟨k', v'⟩ := p
      rw [getField, List.find?_cons] at h
      split at h
      · simp at h
        subst h
        simp
        omega
      · rw [getField] at ih
        have := ih h
        simp
        omega

theorem one_le_sizeOf_list {α : Type _} [SizeOf α] (l : List α) :
    1 ≤ sizeOf l := by
  cases l with
  | nil => simp
  | cons a l => simp; omega

theorem getField_opt_sizeOf_lt (kvs : List (String × Json)) (k : String) :
    sizeOf (getField kvs k) < sizeOf (Json.obj kvs) := by
  match h : getField kvs k with
  | none =>
      have := one_le_sizeOf_list kvs
      simp
      omega
  | some v =>
      have := getField_sizeOf_lt h
      simp
      omega

theorem getField_opt_sizeOf_lt2 (kvs : List (String × Json)) (k : String) :
    sizeOf (getField kvs k) < 1 + sizeOf kvs := by
  have := getField_opt_sizeOf_lt kvs k
  simpa using this

theorem getField_getD_sizeOf_lt (kvs : List (String × Json)) (k : String) :
    sizeOf ((getField kvs k).getD Json.null) < 1 + sizeOf kvs := by
  match h : getField kvs k with
  | none =>
      have := one_le_sizeOf_list kvs
      simp
      omega
  | some v =>
      have := getField_sizeOf_lt h
      simp
      omega

/-- Deserialize a string. -/
def deStr : Json → Option String
  | .str s => some s
  | _ => none

/-- Deserialize a float (f64/f32). -/
def deRat : Json → Option Rat
  | .num q => some q
  | _ => none

/-- Deserialize an unsigned integer (u32). -/
def deNat : Json → Option Nat
  | .num q => if q.den = 1 ∧ 0 ≤ q.num then some q.num.toNat else none
  | _ => none

/-- Deserialize a signed integer (i32). -/
def deInt : Json → Option Int
  | .num q => if q.den = 1 then some q.num else none
  | _ => none

/-- Deserialize a boolean. -/
def deBoolean : Json → Option Bool
  | .bool b => some b
  | _ => none

/-- Deserialize an optional-field value: missing or explicit null is none;
otherwise the value must decode. -/
def decodeOpt {α : Type _} (o : Option Json) (de : Json → Option α) :
    Option (Option α) :=
  match o with
  | none => some none
  | some v => if v = Json.null then some none else (de v).map some

/-- Deserialize an optional struct field: a missing key or an explicit null
is none; otherwise the value must decode. -/
def optField {α : Type _} (kvs : List (String × Json)) (k : String)
    (de : Json → Option α) : Option (Option α) :=
  decodeOpt (getField kvs k) de

/-- Deserialize a required string field. -/
def strField (kvs : List (String × Json)) (k : String) : Option String :=
  (getField kvs k).bind deStr

/-- Derived serde deserialization of a TermQuery. -/
def deTerm : Json → Option TermQuery
  | .obj kvs => do
      let f ← strField kvs "field"
      let v ← getField kvs "value"
      let b ← optField kvs "boost" deRat
      pure ⟨f, v, b⟩
  | _ => none

/-- Derived serde deserialization of a TermsQuery. -/
def deTerms : Json → Option TermsQuery
  | .obj kvs => do
      let f ← strField kvs "field"
      let vs ← (getField kvs "values").bind (fun j =>
        match j with
        | .arr xs => some xs
        | _ => none)
      let b ← optField kvs "boost" deRat
      pure ⟨f, vs, b⟩
  | _ => none

/-- Derived serde deserialization of a MatchQuery. -/
def deMatch : Json → Option MatchQuery
  | .obj kvs => do
      let f ← strField kvs "field"
      let q ← strField kvs "query"
      let op ← optField kvs "operator" deStr
      let fz ← optField kvs "fuzziness" deStr
      let b ← optField kvs "boost" deRat
      let msm ← optField kvs "minimum_should_match" deStr
      pure ⟨f, q, op, fz, b, msm⟩
  | _ => none

/-- Derived serde deserialization of a MatchPhraseQuery. -/
def deMatchPhrase : Json → Option MatchPhraseQuery
  | .obj kvs => do
      let f ← strField kvs "field"
      let q ← strField kvs "query"
      let sl ← optField kvs "slop" deNat
      let an ← optField kvs "analyzer" deStr
      let b ← optField kvs "boost" deRat
      pure ⟨f, q, sl, an, b⟩
  | _ => none

/-- Derived serde deserialization of a MatchPhrasePrefixQuery. -/
def deMatchPhrasePfx : Json → Option MatchPhrasePrefixQuery
  | .obj kvs => do
      let f ← strField kvs "field"
      let q ← strField kvs "query"
      let me ← optField kvs "max_expansions" deNat
      let sl ← optField kvs "slop" deNat
      let b ← optField kvs "boost" deRat
      pure ⟨f, q, me, sl, b⟩
  | _ => none

/-- Derived serde deserialization of a RangeQuery. -/
def deRange : Json → Option RangeQuery
  | .obj kvs => do
      let f ← strField kvs "field"
      let gte ← optField kvs "gte" some
      let gt ← optField kvs "gt" some
      let lte ← optField kvs "lte" some
      let lt ← optField kvs "lt" some
      let b ← optField kvs "boost" deRat
      pure ⟨f, gte, gt, lte, lt, b⟩
  | _ => none

/-- Derived serde deserialization of the lib.rs WildcardQuery. -/
def deWildcard : Json → Option WildcardQuery
  | .obj kvs => do
      let f ← strField kvs "field"
      let v ← strField kvs "value"
      let ci ← (getField kvs "case_insensitive").bind deBoolean
      pure ⟨f, v, ci⟩
  | _ => none

/-- Deserialize one regexp flag from its uppercase name. -/
def deFlag : Json → Option RegexpQueryFlags
  | .str "ALL" => some .All
  | .str "ANYSTRING" => some .Anystring
  | .str "COMPLEMENT" => some .Complement
  | .str "EMPTY" => some .Empty
  | .str "INTERSECTION" => some .Intersection
  | .str "INTERVAL" => some .Interval
  | .str "NONE" => some .NoneFlag
  | _ => none

/-- Deserialize a list of regexp flags elementwise. -/
def deFlags : List Json → Option (List RegexpQueryFlags)
  | [] => some []
  | x :: xs => do
      let f ← deFlag x
      let fs ← deFlags xs
      pure (f :: fs)

/-- Derived serde deserialization of a RegexpQuery. -/
def deRegexp : Json → Option RegexpQuery
  | .obj kvs => do
      let f ← strField kvs "field"
      let v ← strField kvs "value"
      let fl ← optField kvs "flags" (fun j =>
        match j with
        | .arr xs => deFlags xs
        | _ => none)
      pure ⟨f, v, fl⟩
  | _ => none

/-- Derived serde deserialization of a DecayFunction. -/
def deDecay : Json → Option DecayFunction
  | .obj kvs => do
      let f ← strField kvs "field"
      let origin ← optField kvs "origin" some
      let scale ← strField kvs "scale"
      let offset ← optField kvs "offset" deStr
      let decay ← optField kvs "decay" deRat
      pure ⟨f, origin, scale, offset, decay⟩
  | _ => none

/-- Derived serde deserialization of a FieldValueFactor. -/
def deFVF : Json → Option FieldValueFactor
  | .obj kvs => do
      let f ← strField kvs "field"
      let factor ← optField kvs "factor" deRat
      let modifier ← optField kvs "modifier" deStr
      let missing ← optField kvs "missing" deRat
      pure ⟨f, factor, modifier, missing⟩
  | _ => none

/-- Derived serde deserialization of a RandomScore. -/
def deRandomScore : Json → Option RandomScore
  | .obj kvs => do
      let seed ← optField kvs "seed" some
      let f ← optField kvs "field" deStr
      pure ⟨seed, f⟩
  | _ => none

/-- Derived serde deserialization of a ScriptScore. -/
def deScriptScore : Json → Option ScriptScore
  | .obj kvs => do
      let src ← strField kvs "source"
      let params ← optField kvs "params" (fun j =>
        match j with
        | .obj es => some es
        | _ => none)
      pure ⟨src, params⟩
  | _ => none

/-- Derived serde deserialization of a ScoreMode (snake_case tokens). -/
def deScoreMode : Json → Option ScoreMode
  | .str "multiply" => some .Multiply
  | .str "sum" => some .Sum
  | .str "avg" => some .Avg
  | .str "first" => some .First
  | .str "max" => some .Max
  | .str "min" => some .Min
  | _ => none

/-- Derived serde deserialization of a BoostMode. -/
def deBoostMode : Json → Option BoostMode
  | .str "multiply" => some .Multiply
  | .str "replace" => some .Replace
  | .str "sum" => some .Sum
  | .str "avg" => some .Avg
  | .str "max" => some .Max
  | .str "min" => some .Min
  | _ => none

/-- Untagged deserialization of a ScoreFunctionType from the buffered flatten
content: serde tries the variants in declaration order and keeps the first
success.  Gauss, Exp and Linear all deserialize a DecayFunction, so any decay
content yields Gauss; RandomScore has no required field and ignores unknown
keys, so it accepts any content the earlier variants reject; ScriptScore and
Weight are therefore unreachable (a float never deserializes from a map). -/
def deSFType (es : List (String × Json)) : Option ScoreFunctionType :=
  match deDecay (.obj es) with
  | some d => some (.Gauss d)
  | none =>
    match deFVF (.obj es) with
    | some f => some (.FieldValueFactorFn f)
    | none =>
      match deRandomScore (.obj es) with
      | some r => some (.RandomScoreFn r)
      | none =>
        match deScriptScore (.obj es) with
        | some s => some (.ScriptScoreFn s)
        | none => none

/-- Dispatch for the non-recursive QueryType variants by tag. -/
def deQueryLeaf (tag : String) (params : Option Json) : Option QueryType :=
  if tag = "Term" then (params.bind deTerm).map QueryType.Term
  else if tag = "Terms" then (params.bind deTerms).map QueryType.Terms
  else if tag = "Match" then (params.bind deMatch).map QueryType.Match
  else if tag = "MatchPhrase" then
    (params.bind deMatchPhrase).map QueryType.MatchPhrase
  else if tag = "MatchPhrasePrefix" then
    (params.bind deMatchPhrasePfx).map QueryType.MatchPhrasePrefix
  else if tag = "Range" then (params.bind deRange).map QueryType.Range
  else if tag = "MatchAll" then some QueryType.MatchAll
  else if tag = "WildCard" then (params.bind deWildcard).map QueryType.WildCard
  else if tag = "Regexp" then (params.bind deRegexp).map QueryType.Regexp
  else none

/-- The scalar fields of a FunctionScoreQuery. -/
def deFSQrest (kvs : List (String × Json)) (q : Option QueryType)
    (fns : List ScoreFunction) : Option FunctionScoreQuery := do
  let sm ← optField kvs "score_mode" deScoreMode
  let bm ← optField kvs "boost_mode" deBoostMode
  let mb ← optField kvs "max_boost" deRat
  let b ← optField kvs "boost" deRat
  let ms ← optField kvs "min_score" deRat
  pure (.mk q fns sm bm mb b ms)

/-- The weight field and flatten content of a ScoreFunction. -/
def deSFwith (kvs : List (String × Json)) (filter : Option QueryType) :
    Option ScoreFunction := do
  let w ← optField kvs "weight" deRat
  let content := kvs.filter (fun p => p.1 != "filter" && p.1 != "weight")
  let fn ← deSFType content
  pure (.mk fn filter w)

mutual

/-- Derived serde deserialization of the lib.rs QueryType (adjacently
tagged).  For the recursive variants a missing content key is folded to null,
which the payload deserializer rejects, matching serde's error on a missing
content field; a present content key alongside the MatchAll tag is ignored,
which is only reachable on inputs the serializer never produces. -/
def deQuery : Json → Option QueryType
  | .obj kvs =>
      match getField kvs "type" with
      | some (.str tag) =>
          if tag = "Bool" then
            (deBool ((getField kvs "params").getD Json.null)).map QueryType.Bool
          else if tag = "FunctionScore" then
            (deFSQ ((getField kvs "params").getD Json.null)).map
              QueryType.FunctionScore
          else deQueryLeaf tag (getField kvs "params")
      | _ => none
  | _ => none
termination_by j => (sizeOf j, 1)
decreasing_by all_goals
  simp_wf <;>
    first
      | omega
      | (apply Prod.Lex.left
         first
           | omega
           | exact getField_getD_sizeOf_lt _ _
           | exact getField_opt_sizeOf_lt2 _ _)
      | (apply Prod.Lex.right; omega)

/-- Derived serde deserialization of a BoolQuery: missing Vec fields default
to empty. -/
def deBool : Json → Option BoolQuery
  | .obj kvs => do
      let must ← deQVecField (getField kvs "must")
      let must_not ← deQVecField (getField kvs "must_not")
      let should ← deQVecField (getField kvs "should")
      let filter ← deQVecField (getField kvs "filter")
      let msm ← optField kvs "minimum_should_match" deInt
      let boost ← optField kvs "boost" deRat
      pure (.mk must must_not should filter msm boost)
  | _ => none
termination_by j => (sizeOf j, 1)
decreasing_by all_goals
  simp_wf <;>
    first
      | omega
      | (apply Prod.Lex.left
         first
           | omega
           | exact getField_getD_sizeOf_lt _ _
           | exact getField_opt_sizeOf_lt2 _ _)
      | (apply Prod.Lex.right; omega)

/-- Derived serde deserialization of a FunctionScoreQuery: the optional query
(missing or null is none), then the rest of the fields. -/
def deFSQ : Json → Option FunctionScoreQuery
  | .obj kvs =>
      if (getField kvs "query").getD Json.null = Json.null then
        deFSQwith kvs none
      else
        match deQuery ((getField kvs "query").getD Json.null) with
        | none => none
        | some q => deFSQwith kvs (some q)
  | _ => none
termination_by j => (sizeOf j, 1)
decreasing_by all_goals
  simp_wf <;>
    first
      | omega
      | (apply Prod.Lex.left
         first
           | omega
           | exact getField_getD_sizeOf_lt _ _
           | exact getField_opt_sizeOf_lt2 _ _)
      | (apply Prod.Lex.right; omega)

/-- The functions field of a FunctionScoreQuery. -/
def deFSQwith (kvs : List (String × Json)) (q : Option QueryType) :
    Option FunctionScoreQuery :=
  match deSFVecField (getField kvs "functions") with
  | none => none
  | some fns => deFSQrest kvs q fns
termination_by (1 + sizeOf kvs, 0)
decreasing_by all_goals
  simp_wf <;>
    first
      | omega
      | (apply Prod.Lex.left
         first
           | omega
           | exact getField_getD_sizeOf_lt _ _
           | exact getField_opt_sizeOf_lt2 _ _)
      | (apply Prod.Lex.right; omega)

/-- Derived serde deserialization of a ScoreFunction: the named filter field
(missing or null is none), then the weight and the flatten buffer. -/
def deSF : Json → Option ScoreFunction
  | .obj kvs =>
      if (getField kvs "filter").getD Json.null = Json.null then
        deSFwith kvs none
      else
        match deQuery ((getField kvs "filter").getD Json.null) with
        | none => none
        | some q => deSFwith kvs (some q)
  | _ => none
termination_by j => (sizeOf j, 1)
decreasing_by all_goals
  simp_wf <;>
    first
      | omega
      | (apply Prod.Lex.left
         first
           | omega
           | exact getField_getD_sizeOf_lt _ _
           | exact getField_opt_sizeOf_lt2 _ _)
      | (apply Prod.Lex.right; omega)

/-- Deserialize a Vec of queries field value: missing defaults to empty. -/
def deQVecField : Option Json → Option (List QueryType)
  | none => some []
  | some (.arr xs) => deQList xs
  | some _ => none
termination_by o => (sizeOf o, 1)
decreasing_by all_goals
  simp_wf <;>
    first
      | omega
      | (apply Prod.Lex.left
         first
           | omega
           | exact getField_getD_sizeOf_lt _ _
           | exact getField_opt_sizeOf_lt2 _ _)
      | (apply Prod.Lex.right; omega)

/-- Deserialize a Vec of score functions field value: missing defaults to
empty. -/
def deSFVecField : Option Json → Option (List ScoreFunction)
  | none => some []
  | some (.arr xs) => deSFList xs
  | some _ => none
termination_by o => (sizeOf o, 1)
decreasing_by all_goals
  simp_wf <;>
    first
      | omega
      | (apply Prod.Lex.left
         first
           | omega
           | exact getField_getD_sizeOf_lt _ _
           | exact getField_opt_sizeOf_lt2 _ _)
      | (apply Prod.Lex.right; omega)

/-- Deserialize a list of queries elementwise. -/
def deQList : List Json → Option (List QueryType)
  | [] => some []
  | x :: xs => do
      let q ← deQuery x
      let qs ← deQList xs
      pure (q :: qs)
termination_by xs => (sizeOf xs, 1)
decreasing_by all_goals
  simp_wf <;>
    first
      | omega
      | (apply Prod.Lex.left
         first
           | omega
           | exact getField_getD_sizeOf_lt _ _
           | exact getField_opt_sizeOf_lt2 _ _)
      | (apply Prod.Lex.right; omega)

/-- Deserialize a list of score functions elementwise. -/
def deSFList : List Json → Option (List ScoreFunction)
  | [] => some []
  | x :: xs => do
      let f ← deSF x
      let fs ← deSFList xs
      pure (f :: fs)
termination_by xs => (sizeOf xs, 1)
decreasing_by all_goals
  simp_wf <;>
    first
      | omega
      | (apply Prod.Lex.left
         first
           | omega
           | exact getField_getD_sizeOf_lt _ _
           | exact getField_opt_sizeOf_lt2 _ _)
      | (apply Prod.Lex.right; omega)

end

/-- Whether an optional JSON value is not an explicit null.  A stored
`Some(Value::Null)` serializes to a null the deserializer reads back as
`None`, so such values cannot round-trip. -/
def notNullOpt (o : Option Json) : Bool := o != some Json.null

/-- The score-function payloads that survive the untagged round-trip: Gauss
(tried first among the three decay variants), FieldValueFactor, and a
RandomScore with no field (a RandomScore with a field decodes as a
FieldValueFactor).  Exp and Linear decode as Gauss, ScriptScore decodes as
RandomScore, and Weight does not serialize at all. -/
def goodSFT : ScoreFunctionType → Bool
  | .Gauss d => notNullOpt d.origin
  | .FieldValueFactorFn _ => true
  | .RandomScoreFn r => notNullOpt r.seed && r.field.isNone
  | _ => false

mutual

/-- Queries whose serde serialization round-trips: every nested score
function is serde-distinguishable and no optional Value field holds an
explicit null. -/
def goodQ : QueryType → Bool
  | .Term _ => true
  | .Terms _ => true
  | .Match _ => true
  | .MatchPhrase _ => true
  | .MatchPhrasePrefix _ => true
  | .Bool b => goodB b
  | .Range r =>
      notNullOpt r.gte && notNullOpt r.gt && notNullOpt r.lte && notNullOpt r.lt
  | .MatchAll => true
  | .WildCard _ => true
  | .Regexp _ => true
  | .FunctionScore f => goodFSQ f

/-- Good BoolQuery: all four buckets good. -/
def goodB : BoolQuery → Bool
  | .mk m mn s f _ _ => goodQList m && goodQList mn && goodQList s && goodQList f

/-- Good FunctionScoreQuery: good query and good functions. -/
def goodFSQ : FunctionScoreQuery → Bool
  | .mk q fns _ _ _ _ _ => goodOptQ q && goodSFList fns

/-- Good ScoreFunction: distinguishable payload and good filter. -/
def goodSF : ScoreFunction → Bool
  | .mk fn filter _ => goodSFT fn && goodOptQ filter

/-- Good optional query. -/
def goodOptQ : Option QueryType → Bool
  | none => true
  | some q => goodQ q

/-- Good query list. -/
def goodQList : List QueryType → Bool
  | [] => true
  | q :: qs => goodQ q && goodQList qs

/-- Good score-function list. -/
def goodSFList : List ScoreFunction → Bool
  | [] => true
  | f :: fs => goodSF f && goodSFList fs

end

theorem deNat_num (n : Nat) : deNat (.num (n : Rat)) = some n := by
  simp [deNat]

theorem deInt_num (i : Int) : deInt (.num (i : Rat)) = some i := by
  simp [deInt]

theorem rtTerm (t : TermQuery) : deTerm (serTerm t) = some t := by
  obtain ⟨f, v, b⟩ := t
  cases b <;>
    simp +decide [serTerm, deTerm, optEntry, getField, strField, optField, decodeOpt,
      deStr, deRat]

theorem rtTerms (t : TermsQuery) : deTerms (serTerms t) = some t := by
  obtain ⟨f, vs, b⟩ := t
  cases b <;>
    simp +decide [serTerms, deTerms, optEntry, getField, strField, optField, decodeOpt,
      deStr, deRat]

theorem rtMatch (m : MatchQuery) : deMatch (serMatch m) = some m := by
  obtain ⟨f, q, op, fz, b, msm⟩ := m
  cases op <;> cases fz <;> cases b <;> cases msm <;>
    simp +decide [serMatch, deMatch, optEntry, getField, strField, optField, decodeOpt,
      deStr, deRat]

theorem rtMatchPhrase (m : MatchPhraseQuery) :
    deMatchPhrase (serMatchPhrase m) = some m := by
  obtain ⟨f, q, sl, an, b⟩ := m
  cases sl <;> cases an <;> cases b <;>
    simp +decide [serMatchPhrase, deMatchPhrase, optEntry, getField, strField,
      optField, decodeOpt, deStr, deRat, deNat_num]

theorem rtMatchPhrasePfx (m : MatchPhrasePrefixQuery) :
    deMatchPhrasePfx (serMatchPhrasePfx m) = some m := by
  obtain ⟨f, q, me, sl, b⟩ := m
  cases me <;> cases sl <;> cases b <;>
    simp +decide [serMatchPhrasePfx, deMatchPhrasePfx, optEntry, getField,
      strField, optField, decodeOpt, deStr, deRat, deNat_num]

theorem rtRange (r : RangeQuery)
    (h1 : notNullOpt r.gte = true) (h2 : notNullOpt r.gt = true)
    (h3 : notNullOpt r.lte = true) (h4 : notNullOpt r.lt = true) :
    deRange (serRange r) = some r := by
  obtain ⟨f, gte, gt, lte, lt, b⟩ := r
  cases gte <;> cases gt <;> cases lte <;> cases lt <;> cases b <;>
    simp_all +decide [serRange, deRange, optEntry, getField, strField,
      optField, decodeOpt, deStr, deRat, notNullOpt]

theorem rtWildcard (w : WildcardQuery) :
    deWildcard (serWildcard w) = some w := by
  obtain ⟨f, v, ci⟩ := w
  simp +decide [serWildcard, deWildcard, getField, strField, deStr, deBoolean]

theorem rtFlag (fl : RegexpQueryFlags) : deFlag (.str fl.name) = some fl := by
  cases fl <;> rfl

theorem rtFlagList (fs : List RegexpQueryFlags) :
    deFlags (fs.map (fun f => Json.str f.name)) = some fs := by
  induction fs with
  | nil => rfl
  | cons f fs ih => simp [deFlags, rtFlag, ih]

theorem rtRegexp (r : RegexpQuery) : deRegexp (serRegexp r) = some r := by
  obtain ⟨f, v, fl⟩ := r
  cases fl <;>
    simp +decide [serRegexp, deRegexp, optEntry, getField, strField, optField, decodeOpt,
      deStr, rtFlagList]

theorem rtDecay (d : DecayFunction) (h : notNullOpt d.origin = true) :
    deDecay (serDecay d) = some d := by
  obtain ⟨f, origin, scale, offset, decay⟩ := d
  cases origin <;> cases offset <;> cases decay <;>
    simp_all +decide [serDecay, serDecayEntries, deDecay, optEntry, getField, strField,
      optField, decodeOpt, deStr, deRat, notNullOpt]

theorem rtFVF (f : FieldValueFactor) : deFVF (serFVF f) = some f := by
  obtain ⟨fd, factor, modifier, missing⟩ := f
  cases factor <;> cases modifier <;> cases missing <;>
    simp +decide [serFVF, serFVFEntries, deFVF, optEntry, getField, strField, optField, decodeOpt,
      deStr, deRat]

theorem rtRandomScore (r : RandomScore) (h : notNullOpt r.seed = true) :
    deRandomScore (serRandomScore r) = some r := by
  obtain ⟨seed, f⟩ := r
  cases seed <;> cases f <;>
    simp_all +decide [serRandomScore, serRandomScoreEntries, deRandomScore, optEntry, getField,
      strField, optField, decodeOpt, deStr, notNullOpt]

theorem rtScoreMode (m : ScoreMode) : deScoreMode (.str m.token) = some m := by
  cases m <;> rfl

theorem rtBoostMode (m : BoostMode) : deBoostMode (.str m.token) = some m := by
  cases m <;> rfl

@[simp]
theorem getField_nil (k : String) : getField [] k = none := rfl

@[simp]
theorem getField_cons (k k' : String) (v : Json) (rest : List (String × Json)) :
    getField ((k', v) :: rest) k = if k' == k then some v else getField rest k := by
  by_cases h : k' == k <;> simp [getField, List.find?_cons, h]

@[simp]
theorem option_some_or {α : Type _} (a : α) (o : Option α) :
    (some a).or o = some a := rfl

@[simp]
theorem option_none_or {α : Type _} (o : Option α) : Option.or none o = o := rfl

@[simp]
theorem getField_append (xs ys : List (String × Json)) (k : String) :
    getField (xs ++ ys) k = (getField xs k).or (getField ys k) := by
  induction xs with
  | nil => simp
  | cons p rest ih =>
      obtain ⟨k', v⟩ := p
      by_cases h : k' == k <;> simp [h, ih]

@[simp]
theorem getField_ite (c : Prop) [Decidable c] (l₁ l₂ : List (String × Json))
    (k : String) :
    getField (if c then l₁ else l₂) k
      = if c then getField l₁ k else getField l₂ k := by
  split <;> rfl

@[simp]
theorem getField_optEntry (k k' : String) (v : Option Json) :
    getField (optEntry k' v) k = if k' == k then v else none := by
  cases v <;> simp [optEntry] <;> split <;> rfl

theorem deQVecField_none : deQVecField none = some [] := by
  rw [deQVecField.eq_def]

theorem deQVecField_arr (xs : List Json) :
    deQVecField (some (.arr xs)) = deQList xs := by
  rw [deQVecField.eq_def]

theorem deSFVecField_none : deSFVecField none = some [] := by
  rw [deSFVecField.eq_def]

theorem deSFVecField_arr (xs : List Json) :
    deSFVecField (some (.arr xs)) = deSFList xs := by
  rw [deSFVecField.eq_def]

theorem deQVecField_bucket (c : Prop) [Decidable c] (jm : List Json)
    (qs : List QueryType) (hd : deQList jm = some qs) (hc : c → qs = []) :
    deQVecField (if c then none else some (.arr jm)) = some qs := by
  by_cases h : c
  · simp [h, deQVecField_none, hc h]
  · simp [h, deQVecField_arr, hd]

theorem deSFVecField_bucket (c : Prop) [Decidable c] (jm : List Json)
    (fs : List ScoreFunction) (hd : deSFList jm = some fs) (hc : c → fs = []) :
    deSFVecField (if c then none else some (.arr jm)) = some fs := by
  by_cases h : c
  · simp [h, deSFVecField_none, hc h]
  · simp [h, deSFVecField_arr, hd]

theorem decodeOpt_bind_id {β : Type _} (g : β → Json) (de : Json → Option β)
    (o : Option β) (h : ∀ x, g x ≠ Json.null ∧ de (g x) = some x) :
    decodeOpt (o.bind fun x => some (g x)) de = some o := by
  cases o with
  | none => rfl
  | some x => simp [decodeOpt, (h x).1, (h x).2]

theorem decodeOpt_map_id {β : Type _} (g : β → Json) (de : Json → Option β)
    (o : Option β) (h : ∀ x, g x ≠ Json.null ∧ de (g x) = some x) :
    decodeOpt (o.map g) de = some o := by
  cases o with
  | none => rfl
  | some x => simp [decodeOpt, (h x).1, (h x).2]


theorem filter_optEntry (p : String × Json → Bool) (k : String)
    (v : Option Json) (hp : ∀ x : Json, p (k, x) = true) :
    (optEntry k v).filter p = optEntry k v := by
  cases v <;> simp [optEntry, hp]

theorem decodeOpt_notnull (o : Option Json) (h : notNullOpt o = true) :
    decodeOpt o some = some o := by
  cases o with
  | none => rfl
  | some v =>
      simp [notNullOpt] at h
      simp [decodeOpt, h]

theorem deDecay_fvf (f : FieldValueFactor) :
    deDecay (.obj (serFVFEntries f)) = none := by
  simp +decide [deDecay, serFVFEntries, strField, optField, decodeOpt, deStr]

theorem deDecay_rs (r : RandomScore) :
    deDecay (.obj (serRandomScoreEntries r)) = none := by
  simp +decide [deDecay, serRandomScoreEntries, strField]

theorem deFVF_rs (r : RandomScore) (hf : r.field = none) :
    deFVF (.obj (serRandomScoreEntries r)) = none := by
  simp +decide [deFVF, serRandomScoreEntries, strField, hf]

/-- The flatten buffer of a good score-function payload: its serialization
succeeds, contains no filter or weight key, survives the flatten content
split unchanged, and untagged deserialization recovers exactly the original
payload. -/
theorem sfType_entries_spec (fn : ScoreFunctionType) (h : goodSFT fn = true) :
    ∃ es, serSFTypeEntries fn = some es ∧
      getField es "filter" = none ∧
      getField es "weight" = none ∧
      es.filter (fun p => p.1 != "filter" && p.1 != "weight") = es ∧
      deSFType es = some fn := by
  cases fn with
  | Gauss d =>
      refine ⟨serDecayEntries d, rfl, ?_, ?_, ?_, ?_⟩
      · simp +decide [serDecayEntries]
      · simp +decide [serDecayEntries]
      · simp +decide [serDecayEntries, List.filter_append, filter_optEntry]
      · have hd := rtDecay d (by simpa [goodSFT] using h)
        rw [serDecay] at hd
        simp [deSFType, hd]
  | Exp d => simp [goodSFT] at h
  | Linear d => simp [goodSFT] at h
  | FieldValueFactorFn fv =>
      refine ⟨serFVFEntries fv, rfl, ?_, ?_, ?_, ?_⟩
      · simp +decide [serFVFEntries]
      · simp +decide [serFVFEntries]
      · simp +decide [serFVFEntries, List.filter_append, filter_optEntry]
      · have hd := rtFVF fv
        rw [serFVF] at hd
        simp [deSFType, deDecay_fvf fv, hd]
  | RandomScoreFn r =>
      rw [goodSFT, Bool.and_eq_true] at h
      have hf : r.field = none := by
        simpa [Option.isNone_iff_eq_none] using h.2
      refine ⟨serRandomScoreEntries r, rfl, ?_, ?_, ?_, ?_⟩
      · simp +decide [serRandomScoreEntries]
      · simp +decide [serRandomScoreEntries]
      · simp +decide [serRandomScoreEntries, List.filter_append, filter_optEntry]
      · have hd := rtRandomScore r h.1
        rw [serRandomScore] at hd
        simp [deSFType, deDecay_rs r, deFVF_rs r hf, hd]
  | ScriptScoreFn s => simp [goodSFT] at h
  | Weight w => simp [goodSFT] at h


theorem filter_optEntry_drop (p : String × Json → Bool) (k : String)
    (v : Option Json) (hp : ∀ x : Json, p (k, x) = false) :
    (optEntry k v).filter p = [] := by
  cases v <;> simp [optEntry, hp]

theorem decodeOpt_num (o : Option Rat) :
    decodeOpt (o.map Json.num) deRat = some o :=
  decodeOpt_map_id _ _ _ (fun x => ⟨by simp, by simp [deRat]⟩)

theorem decodeOpt_num_bind (o : Option Rat) :
    decodeOpt (o.bind fun x => some (Json.num x)) deRat = some o :=
  decodeOpt_bind_id _ _ _ (fun x => ⟨by simp, by simp [deRat]⟩)

theorem decodeOpt_int (o : Option Int) :
    decodeOpt (o.map fun n : Int => Json.num (n : Rat)) deInt = some o :=
  decodeOpt_map_id _ _ _ (fun x => ⟨by simp, deInt_num x⟩)

theorem decodeOpt_int_bind (o : Option Int) :
    decodeOpt (o.bind fun n : Int => some (Json.num (n : Rat))) deInt
      = some o :=
  decodeOpt_bind_id _ _ _ (fun x => ⟨by simp, deInt_num x⟩)

theorem decodeOpt_scoreMode (o : Option ScoreMode) :
    decodeOpt (o.map fun m => Json.str m.token) deScoreMode = some o :=
  decodeOpt_map_id _ _ _ (fun x => ⟨by simp, rtScoreMode x⟩)

theorem decodeOpt_scoreMode_bind (o : Option ScoreMode) :
    decodeOpt (o.bind fun m => some (Json.str m.token)) deScoreMode = some o :=
  decodeOpt_bind_id _ _ _ (fun x => ⟨by simp, rtScoreMode x⟩)

theorem decodeOpt_boostMode (o : Option BoostMode) :
    decodeOpt (o.map fun m => Json.str m.token) deBoostMode = some o :=
  decodeOpt_map_id _ _ _ (fun x => ⟨by simp, rtBoostMode x⟩)

theorem decodeOpt_boostMode_bind (o : Option BoostMode) :
    decodeOpt (o.bind fun m => some (Json.str m.token)) deBoostMode = some o :=
  decodeOpt_bind_id _ _ _ (fun x => ⟨by simp, rtBoostMode x⟩)

/-- Whatever serQuery returns is never the JSON null. -/
theorem serQuery_ne_null (q : QueryType) (j : Json)
    (h : serQuery q = some j) : j ≠ Json.null := by
  intro hj
  subst hj
  cases q with
  | Term t => simp [serQuery.eq_def, tagged] at h
  | Terms t => simp [serQuery.eq_def, tagged] at h
  | Match m => simp [serQuery.eq_def, tagged] at h
  | MatchPhrase m => simp [serQuery.eq_def, tagged] at h
  | MatchPhrasePrefix m => simp [serQuery.eq_def, tagged] at h
  | Range r => simp [serQuery.eq_def, tagged] at h
  | MatchAll => simp [serQuery.eq_def] at h
  | WildCard w => simp [serQuery.eq_def, tagged] at h
  | Regexp r => simp [serQuery.eq_def, tagged] at h
  | Bool b =>
      simp only [serQuery.eq_def] at h
      cases hb : serBool b <;> rw [hb] at h <;> simp [tagged] at h
  | FunctionScore f =>
      simp only [serQuery.eq_def] at h
      cases hb : serFSQ f <;> rw [hb] at h <;> simp [tagged] at h

mutual

/-- Round trip of a good query through the serde model. -/
theorem rtQ : ∀ q : QueryType, goodQ q = true → (serQuery q).bind deQuery = some q
  | .Term t, _ => by
      simp only [serQuery.eq_def, Option.some_bind]
      rw [deQuery.eq_def]
      simp +decide [tagged, deQueryLeaf, rtTerm]
  | .Terms t, _ => by
      simp only [serQuery.eq_def, Option.some_bind]
      rw [deQuery.eq_def]
      simp +decide [tagged, deQueryLeaf, rtTerms]
  | .Match m, _ => by
      simp only [serQuery.eq_def, Option.some_bind]
      rw [deQuery.eq_def]
      simp +decide [tagged, deQueryLeaf, rtMatch]
  | .MatchPhrase m, _ => by
      simp only [serQuery.eq_def, Option.some_bind]
      rw [deQuery.eq_def]
      simp +decide [tagged, deQueryLeaf, rtMatchPhrase]
  | .MatchPhrasePrefix m, _ => by
      simp only [serQuery.eq_def, Option.some_bind]
      rw [deQuery.eq_def]
      simp +decide [tagged, deQueryLeaf, rtMatchPhrasePfx]
  | .Range r, hg => by
      simp only [goodQ.eq_def, Bool.and_eq_true] at hg
      obtain ⟨⟨⟨h1, h2⟩, h3⟩, h4⟩ := hg
      simp only [serQuery.eq_def, Option.some_bind]
      rw [deQuery.eq_def]
      simp +decide [tagged, deQueryLeaf, rtRange r h1 h2 h3 h4]
  | .MatchAll, _ => by
      simp only [serQuery.eq_def, Option.some_bind]
      rw [deQuery.eq_def]
      simp +decide [deQueryLeaf]
  | .WildCard w, _ => by
      simp only [serQuery.eq_def, Option.some_bind]
      rw [deQuery.eq_def]
      simp +decide [tagged, deQueryLeaf, rtWildcard]
  | .Regexp r, _ => by
      simp only [serQuery.eq_def, Option.some_bind]
      rw [deQuery.eq_def]
      simp +decide [tagged, deQueryLeaf, rtRegexp]
  | .Bool b, hg => by
      have hb : goodB b = true := by simpa only [goodQ.eq_def] using hg
      have ih := rtB b hb
      cases hsb : serBool b with
      | none => rw [hsb] at ih; simp at ih
      | some p =>
          rw [hsb, Option.some_bind] at ih
          simp only [serQuery.eq_def, hsb, Option.some_bind]
          rw [deQuery.eq_def]
          simp +decide [tagged, ih]
  | .FunctionScore f, hg => by
      have hf : goodFSQ f = true := by simpa only [goodQ.eq_def] using hg
      have ih := rtFSQ f hf
      cases hsf : serFSQ f with
      | none => rw [hsf] at ih; simp at ih
      | some p =>
          rw [hsf, Option.some_bind] at ih
          simp only [serQuery.eq_def, hsf, Option.some_bind]
          rw [deQuery.eq_def]
          simp +decide [tagged, ih]
termination_by q _ => sizeOf q
decreasing_by all_goals (simp_wf <;> omega)

/-- Round trip of a good bool query. -/
theorem rtB : ∀ b : BoolQuery, goodB b = true → (serBool b).bind deBool = some b
  | .mk m mn s f msm bo, hg => by
      simp only [goodB.eq_def, Bool.and_eq_true] at hg
      obtain ⟨⟨⟨hm, hmn⟩, hs⟩, hf⟩ := hg
      have im := rtQL m hm
      have imn := rtQL mn hmn
      have is2 := rtQL s hs
      have if2 := rtQL f hf
      cases hsm : serQList m with
      | none => rw [hsm] at im; simp at im
      | some jm =>
      cases hsmn : serQList mn with
      | none => rw [hsmn] at imn; simp at imn
      | some jmn =>
      cases hss : serQList s with
      | none => rw [hss] at is2; simp at is2
      | some js =>
      cases hsf : serQList f with
      | none => rw [hsf] at if2; simp at if2
      | some jf =>
      rw [hsm, Option.some_bind] at im
      rw [hsmn, Option.some_bind] at imn
      rw [hss, Option.some_bind] at is2
      rw [hsf, Option.some_bind] at if2
      have e1 := deQVecField_bucket (m.isEmpty = true) jm m im
        (fun h => List.isEmpty_iff.mp h)
      have e2 := deQVecField_bucket (mn.isEmpty = true) jmn mn imn
        (fun h => List.isEmpty_iff.mp h)
      have e3 := deQVecField_bucket (s.isEmpty = true) js s is2
        (fun h => List.isEmpty_iff.mp h)
      have e4 := deQVecField_bucket (f.isEmpty = true) jf f if2
        (fun h => List.isEmpty_iff.mp h)
      simp only [serBool.eq_def, hsm, hsmn, hss, hsf, Option.some_bind]
      rw [deBool.eq_def]
      simp +decide [optField, e1, e2, e3, e4, decodeOpt_int,
        decodeOpt_int_bind, decodeOpt_num, decodeOpt_num_bind]
termination_by b _ => sizeOf b
decreasing_by all_goals (simp_wf <;> omega)

/-- Round trip of a good function-score query. -/
theorem rtFSQ : ∀ f : FunctionScoreQuery, goodFSQ f = true →
    (serFSQ f).bind deFSQ = some f
  | .mk none fns sm bm mb b ms, hg => by
      simp only [goodFSQ.eq_def, Bool.and_eq_true] at hg
      have ifs := rtSFL fns hg.2
      cases hsl : serSFList fns with
      | none => rw [hsl] at ifs; simp at ifs
      | some jfs =>
      rw [hsl, Option.some_bind] at ifs
      have e1 := deSFVecField_bucket (fns.isEmpty = true) jfs fns ifs
        (fun h => List.isEmpty_iff.mp h)
      simp only [serFSQ.eq_def, hsl, Option.some_bind]
      rw [deFSQ.eq_def]
      simp +decide [serFSQbody, deFSQwith.eq_def, deFSQrest, optField, e1,
        decodeOpt_scoreMode, decodeOpt_scoreMode_bind, decodeOpt_boostMode,
        decodeOpt_boostMode_bind, decodeOpt_num, decodeOpt_num_bind]
  | .mk (some qq) fns sm bm mb b ms, hg => by
      simp only [goodFSQ.eq_def, Bool.and_eq_true] at hg
      have ifs := rtSFL fns hg.2
      have hqr := rtQ qq (by simpa only [goodOptQ.eq_def] using hg.1)
      cases hsl : serSFList fns with
      | none => rw [hsl] at ifs; simp at ifs
      | some jfs =>
      rw [hsl, Option.some_bind] at ifs
      have e1 := deSFVecField_bucket (fns.isEmpty = true) jfs fns ifs
        (fun h => List.isEmpty_iff.mp h)
      cases hsq : serQuery qq with
      | none => rw [hsq] at hqr; simp at hqr
      | some jq =>
          rw [hsq, Option.some_bind] at hqr
          have hnn : jq ≠ Json.null := serQuery_ne_null qq jq hsq
          simp only [serFSQ.eq_def, hsq, hsl, Option.some_bind]
          rw [deFSQ.eq_def]
          simp +decide [serFSQbody, hnn, hqr, deFSQwith.eq_def, deFSQrest,
            optField, e1, decodeOpt_scoreMode, decodeOpt_scoreMode_bind,
            decodeOpt_boostMode, decodeOpt_boostMode_bind, decodeOpt_num,
            decodeOpt_num_bind]
termination_by f _ => sizeOf f
decreasing_by all_goals (simp_wf <;> omega)

/-- Round trip of a good score function. -/
theorem rtSF : ∀ sf : ScoreFunction, goodSF sf = true →
    (serSF sf).bind deSF = some sf
  | .mk fn none w, hg => by
      simp only [goodSF.eq_def, Bool.and_eq_true] at hg
      obtain ⟨es, hes, hfilA, hwA, hfiltId, hdeT⟩ := sfType_entries_spec fn hg.1
      have hw1 : (optEntry "weight" (w.map Json.num)).filter
          (fun p => p.1 != "filter" && p.1 != "weight") = [] :=
        filter_optEntry_drop _ _ _ (fun x => by simp +decide)
      simp only [serSF.eq_def, hes, Option.some_bind]
      rw [deSF.eq_def]
      simp +decide [serSFbody, hfilA, hwA, deSFwith, optField, decodeOpt_num,
        decodeOpt_num_bind, List.filter_append, hfiltId, hw1, hdeT]
  | .mk fn (some fq) w, hg => by
      simp only [goodSF.eq_def, Bool.and_eq_true] at hg
      obtain ⟨es, hes, hfilA, hwA, hfiltId, hdeT⟩ := sfType_entries_spec fn hg.1
      have hw1 : (optEntry "weight" (w.map Json.num)).filter
          (fun p => p.1 != "filter" && p.1 != "weight") = [] :=
        filter_optEntry_drop _ _ _ (fun x => by simp +decide)
      have hqr := rtQ fq (by simpa only [goodOptQ.eq_def] using hg.2)
      cases hsq : serQuery fq with
      | none => rw [hsq] at hqr; simp at hqr
      | some jq =>
          rw [hsq, Option.some_bind] at hqr
          have hnn : jq ≠ Json.null := serQuery_ne_null fq jq hsq
          simp only [serSF.eq_def, hes, hsq, Option.some_bind]
          rw [deSF.eq_def]
          simp +decide [serSFbody, hfilA, hwA, hnn, hqr, deSFwith, optField,
            decodeOpt_num, decodeOpt_num_bind, List.filter_append, hfiltId,
            hw1, hdeT]
termination_by sf _ => sizeOf sf
decreasing_by all_goals (simp_wf <;> omega)

/-- Round trip of a good query list. -/
theorem rtQL : ∀ qs : List QueryType, goodQList qs = true →
    (serQList qs).bind deQList = some qs
  | [], _ => by
      rw [serQList.eq_def]
      simp only [Option.some_bind]
      rw [deQList.eq_def]
  | q :: qs2, hg => by
      rw [goodQList.eq_def] at hg
      simp only [Bool.and_eq_true] at hg
      have iq := rtQ q hg.1
      have iqs := rtQL qs2 hg.2
      cases hsq : serQuery q with
      | none => rw [hsq] at iq; simp at iq
      | some j =>
          rw [hsq, Option.some_bind] at iq
          cases hsqs : serQList qs2 with
          | none => rw [hsqs] at iqs; simp at iqs
          | some js =>
              rw [hsqs, Option.some_bind] at iqs
              rw [serQList.eq_def]
              simp only [hsq, hsqs, Option.some_bind]
              rw [deQList.eq_def]
              simp [iq, iqs]
termination_by qs _ => sizeOf qs
decreasing_by all_goals (simp_wf <;> omega)

/-- Round trip of a good score-function list. -/
theorem rtSFL : ∀ fs : List ScoreFunction, goodSFList fs = true →
    (serSFList fs).bind deSFList = some fs
  | [], _ => by
      rw [serSFList.eq_def]
      simp only [Option.some_bind]
      rw [deSFList.eq_def]
  | f :: fs2, hg => by
      rw [goodSFList.eq_def] at hg
      simp only [Bool.and_eq_true] at hg
      have iq := rtSF f hg.1
      have iqs := rtSFL fs2 hg.2
      cases hsq : serSF f with
      | none => rw [hsq] at iq; simp at iq
      | some j =>
          rw [hsq, Option.some_bind] at iq
          cases hsqs : serSFList fs2 with
          | none => rw [hsqs] at iqs; simp at iqs
          | some js =>
              rw [hsqs, Option.some_bind] at iqs
              rw [serSFList.eq_def]
              simp only [hsq, hsqs, Option.some_bind]
              rw [deSFList.eq_def]
              simp [iq, iqs]
termination_by fs _ => sizeOf fs
decreasing_by all_goals (simp_wf <;> omega)

end

/-- A FunctionScore query whose single score function is an Exp decay. -/
def expQuery : QueryType :=
  .FunctionScore (.mk none
    [.mk (.Exp (DecayFunction.new "ts" "10d")) none none]
    none none none none none)

/-- What the serde round trip actually returns for expQuery: the same decay
payload, but tagged Gauss (the first untagged variant that matches). -/
def expQueryBack : QueryType :=
  .FunctionScore (.mk none
    [.mk (.Gauss (DecayFunction.new "ts" "10d")) none none]
    none none none none none)

theorem serde_roundtrip_cex :
    (serQuery expQuery).bind deQuery = some expQueryBack ∧
    expQueryBack ≠ expQuery := by
  constructor
  · obtain ⟨es, hes, hfilA, hwA, hfiltId, hdeT⟩ :=
      sfType_entries_spec (.Gauss (DecayFunction.new "ts" "10d"))
        (by simp [goodSFT, DecayFunction.new, notNullOpt])
    have hesE : serSFTypeEntries (.Exp (DecayFunction.new "ts" "10d"))
        = some es := by
      simpa [serSFTypeEntries] using hes
    have hsf : serSF (.mk (.Exp (DecayFunction.new "ts" "10d")) none none)
        = some (serSFbody es [] none) := by
      simp only [serSF.eq_def, hesE]
    have hsfl : serSFList
        [(.mk (.Exp (DecayFunction.new "ts" "10d")) none none : ScoreFunction)]
        = some [serSFbody es [] none] := by
      rw [serSFList.eq_def]
      simp only [hsf]
      rw [serSFList.eq_def]
    have hfsq : serFSQ (.mk none
        [(.mk (.Exp (DecayFunction.new "ts" "10d")) none none : ScoreFunction)]
        none none none none none)
        = some (serFSQbody [] [(.mk (.Exp (DecayFunction.new "ts" "10d")) none
            none : ScoreFunction)] [serSFbody es [] none] none none none none
            none) := by
      simp only [serFSQ.eq_def, hsfl]
    have hdsf : deSF (serSFbody es [] none)
        = some (.mk (.Gauss (DecayFunction.new "ts" "10d")) none none) := by
      rw [deSF.eq_def]
      simp +decide [serSFbody, hfilA, hwA, deSFwith, optField, decodeOpt,
        optEntry, hfiltId, hdeT]
    have hdsfl : deSFList [serSFbody es [] none]
        = some [(.mk (.Gauss (DecayFunction.new "ts" "10d")) none none :
            ScoreFunction)] := by
      rw [deSFList.eq_def]
      simp only [hdsf, Option.some_bind]
      rw [deSFList.eq_def]
      simp
    have hdfsq : deFSQ (serFSQbody []
        [(.mk (.Exp (DecayFunction.new "ts" "10d")) none none : ScoreFunction)]
        [serSFbody es [] none] none none none none none)
        = some (.mk none
            [(.mk (.Gauss (DecayFunction.new "ts" "10d")) none none :
              ScoreFunction)] none none none none none) := by
      rw [deFSQ.eq_def]
      simp +decide [serFSQbody, deFSQwith.eq_def, deSFVecField_arr, hdsfl,
        deFSQrest, optField, decodeOpt, optEntry]
    rw [expQuery]
    simp only [serQuery.eq_def, hfsq, Option.some_bind]
    rw [deQuery.eq_def]
    simp +decide [tagged, hdfsq, expQueryBack]
  · simp [expQuery, expQueryBack]

/-- C3: the spec claims decode(encode(x)) = x for every value of the typed
model.  As stated this fails — serde_roundtrip_cex shows a FunctionScore
query holding an Exp decay function whose round trip returns the same
payload retagged Gauss, because the untagged ScoreFunctionType cannot
distinguish the three decay variants (likewise ScriptScore reads back as
RandomScore, a RandomScore with a field as FieldValueFactor, Weight fails to
serialize under flatten, and a stored explicit null reads back as absence).
Amended: the round trip is the identity on every query of the
serde-distinguishable fragment goodQ. -/
theorem serde_roundtrip_good (q : QueryType) (hg : goodQ q = true) :
    (serQuery q).bind deQuery = some q := rtQ q hg

theorem serde_roundtrip_good_witness :
    goodQ (.Term (TermQuery.new "status" (.str "active"))) = true ∧
    (serQuery (.Term (TermQuery.new "status" (.str "active")))).bind deQuery
      = some (.Term (TermQuery.new "status" (.str "active"))) :=
  ⟨by simp [goodQ.eq_def], serde_roundtrip_good _ (by simp [goodQ.eq_def])⟩

end Lib
